import Mathlib

/-!
Verification of the SentinelG3 orchestration core.

This file gives a shallow embedding of the Python sources
(`app/agents/base.py`, `app/agents/auditor.py`, `app/agents/fixer.py`,
`app/orchestrator.py`, `app/models/schemas.py`) and proves the frozen
claims about them.  Remote-service calls, the JSON library and wall-clock
timestamps are modelled as explicit inputs (oracles); file I/O is modelled
as a partial map from path strings to contents.
-/

namespace SentinelG3

/-! ## Base agent state (`app/agents/base.py`) -/

/-- The mutable model-selection state of a `BaseAgent`
(`self.model`, `self.fallback_model`, `self._using_fallback`). -/
structure AgentState where
  model : String
  fallback_model : String
  using_fallback : Bool
deriving DecidableEq

/-- Model of `BaseAgent.active_model`: the fallback identifier when the fallback is
engaged, the primary identifier otherwise. -/
def AgentState.active_model (s : AgentState) : String :=
  if s.using_fallback then s.fallback_model else s.model

/-- Model of `BaseAgent.switch_to_fallback`: returns whether a switch occurred,
together with the updated state.  No-op returning `false` when already on
fallback or when the primary and fallback identifiers coincide. -/
def AgentState.switch_to_fallback (s : AgentState) : Bool × AgentState :=
  if s.using_fallback then (false, s)
  else if s.model = s.fallback_model then (false, s)
  else (true, { s with using_fallback := true })

/-! ## Filesystem model and the patch application guard
(`FixerAgent._write_patch` in `app/agents/fixer.py`) -/

/-- The filesystem as a partial map from path strings to file contents. -/
def FS : Type := String → Option String

/-- Overwrite (or create) one file. -/
def FS.write (fs : FS) (p c : String) : FS :=
  fun q => if q = p then some c else fs q

/-- Python `PurePath` name splitting at the last `'.'`:
`pySplitName name = (stem, suffix)` with `stem ++ suffix = name`.
The suffix is empty when there is no dot, when the dot is the first
character of the name, or when it is the last character (CPython's
`0 < i < len(name) - 1` rule). -/
def pySplitName (name : List Char) : List Char × List Char :=
  let before := name.reverse.takeWhile (fun c => c ≠ '.')
  match name.reverse.dropWhile (fun c => c ≠ '.') with
  | [] => (name, [])
  | _ :: restTail =>
      if before = [] then (name, [])
      else if restTail = [] then (name, [])
      else (restTail.reverse, '.' :: before.reverse)

/-- Split a path at the last `'/'` into `(directory-with-slash, basename)`,
so that the two parts concatenate back to the path. -/
def splitLastSlash (p : List Char) : List Char × List Char :=
  ((p.reverse.dropWhile (fun c => c ≠ '/')).reverse,
   (p.reverse.takeWhile (fun c => c ≠ '/')).reverse)

/-- Python `Path.suffix` of a path (computed on the basename). -/
def pySuffix (p : List Char) : List Char :=
  (pySplitName (splitLastSlash p).2).2

/-- Python `Path.with_suffix`: drop the current suffix of the basename and
append the new one. -/
def pyWithSuffix (p : List Char) (newSuf : List Char) : List Char :=
  (splitLastSlash p).1 ++ (pySplitName (splitLastSlash p).2).1 ++ newSuf

/-- The backup location used by `FixerAgent._write_patch`:
`target.with_suffix(f"{target.suffix}.bak.{ts}")` where `ts` is the
UTC timestamp string `%Y%m%dT%H%M%SZ`. -/
def backupPath (p ts : String) : String :=
  String.mk (pyWithSuffix p.toList (pySuffix p.toList ++ (".bak." ++ ts).toList))

/-- Failure modes of `FixerAgent._write_patch`: the `FileNotFoundError`
raised for a missing target, and a failure of the `shutil.copy2` backup
step. -/
inductive WriteErr where
  | notFound
  | backupFailed
deriving DecidableEq

/-- Model of `FixerAgent._write_patch file_path fixed_code`.  `ts` is the wall-clock
timestamp read inside the call and `copyOk` tells whether the
`shutil.copy2` backup step succeeds (it is an external-failure oracle).
Returns the resulting filesystem together with the raised error, if any;
when an error is raised the target file is left untouched. -/
def write_patch (fs : FS) (file_path fixed_code ts : String) (copyOk : Bool) :
    FS × Option WriteErr :=
  match fs file_path with
  | none => (fs, some .notFound)
  | some orig =>
      if copyOk then
        (((fs.write (backupPath file_path ts) orig).write file_path fixed_code), none)
      else (fs, some .backupFailed)

/-! ## Code extraction (`FixerAgent._extract_code` in `app/agents/fixer.py`)

The Python code runs `re.search(r"```(?:\w+)?\s*\n(.*?)```", raw, re.DOTALL)`
and returns `group(1).strip()` on a match, else `raw.strip()`.  The model
below reproduces the backtracking regex semantics directly: at the leftmost
position where the pattern matches, the (greedy) `\w`-run after the opening
backticks is consumed, the greedy `\s*\n` consumes up to the last newline of
the following whitespace run, and the lazy group extends to the first
closing triple backtick. -/

/-- The character class `\s` of Python's `re` (ASCII part), which is also
the set stripped by `str.strip()`. -/
def isSpaceChar (c : Char) : Bool :=
  c = ' ' || c = '\t' || c = '\n' || c = '\r' || c = '\x0b' || c = '\x0c'

/-- The character class `\w` of Python's `re` (ASCII part). -/
def isWordChar (c : Char) : Bool :=
  c.isAlphanum || c = '_'

/-- Python `str.strip()`: drop leading and trailing whitespace. -/
def stripChars (l : List Char) : List Char :=
  ((l.dropWhile isSpaceChar).reverse.dropWhile isSpaceChar).reverse

/-- Python `str.strip()` on strings. -/
def stripStr (s : String) : String :=
  String.mk (stripChars s.toList)

/-- The prefix of `l` before its first occurrence of ```` ``` ````, or
`none` if there is none (the lazy group closed by the literal backticks). -/
def splitTicks : List Char → Option (List Char)
  | [] => none
  | c :: rest =>
      if c = '`' then
        match rest with
        | '`' :: '`' :: _ => some []
        | _ => (splitTicks rest).map (fun pre => c :: pre)
      else (splitTicks rest).map (fun pre => c :: pre)

/-- Complete a regex match right after an opening ```` ``` ````: consume the
`\w`-run, then `\s*\n` up to the last newline of the whitespace run, and
return the lazy group closed by the next ```` ``` ````.  The group starts
right after the last newline of the whitespace run (`tailRev` is the
reversed segment of the run after that newline); no newline in the run
means the `\s*\n` part cannot match. -/
def fenceBody (rest : List Char) : Option (List Char) :=
  let afterW := rest.dropWhile isWordChar
  let run := afterW.takeWhile isSpaceChar
  let tailRev := run.reverse.takeWhile (fun c => c ≠ '\n')
  if (run.reverse.dropWhile (fun c => c ≠ '\n')).isEmpty then none
  else splitTicks (afterW.drop (run.length - tailRev.length))

/-- Try to match the fence pattern at the head of `l`. -/
def matchFenceAt (l : List Char) : Option (List Char) :=
  match l with
  | '`' :: '`' :: '`' :: rest => fenceBody rest
  | _ => none

/-- Model of `re.search`: the group of the match at the leftmost matching
position. -/
def searchFence : List Char → Option (List Char)
  | [] => none
  | c :: rest =>
      match matchFenceAt (c :: rest) with
      | some g => some g
      | none => searchFence rest

/-- Model of `FixerAgent._extract_code`: the stripped body of the first fenced block
if the fence pattern matches anywhere, else the raw text stripped. -/
def extract_code (raw : String) : String :=
  match searchFence raw.toList with
  | some g => String.mk (stripChars g)
  | none => stripStr raw

/-! ## Structured data (`app/models/schemas.py`) and response parsing
(`AuditorAgent._parse_response` in `app/agents/auditor.py`) -/

/-- JSON values, the output type of `json.loads` (numbers restricted to the
integers, which covers the schema's `line_number`). -/
inductive Json where
  | null
  | bool (b : Bool)
  | num (n : Int)
  | str (s : String)
  | arr (xs : List Json)
  | obj (fields : List (String × Json))

/-- Model of `Vulnerability` (pydantic model): one finding of the auditor. -/
structure Vulnerability where
  severity : String
  issue : String
  file_path : String
  line_number : Int
  fix_suggestion : String
deriving DecidableEq

/-- Model of `AuditResult` (pydantic model). -/
structure AuditResult where
  vulnerabilities : List Vulnerability
  scanned_files : Nat
  repository_path : String

/-- Model of `PatchResult` (pydantic model): outcome of one fix attempt. -/
structure PatchResult where
  file_path : String
  original_code : String
  fixed_code : String
  success : Bool
  message : String
deriving DecidableEq

/-- First-match association lookup on a JSON object's fields. -/
def jsonLookup (fields : List (String × Json)) (k : String) : Option Json :=
  (fields.find? (fun f => f.1 = k)).map (fun f => f.2)

/-- Model of `dict.setdefault("file_path", fallback_path)`: add the key at the end
of the object when missing; non-objects are returned unchanged (the Python
code only calls `setdefault` on `dict` items). -/
def setDefaultFilePath (j : Json) (fallback_path : String) : Json :=
  match j with
  | .obj fields =>
      match jsonLookup fields "file_path" with
      | some _ => .obj fields
      | none => .obj (fields ++ [("file_path", .str fallback_path)])
  | other => other

/-- Model of `Vulnerability.model_validate` on one decoded item: requires the five
schema fields with their declared types; anything else fails validation
and the item is skipped. -/
def validateVuln (j : Json) : Option Vulnerability :=
  match j with
  | .obj fields =>
      match jsonLookup fields "severity", jsonLookup fields "issue",
            jsonLookup fields "file_path", jsonLookup fields "line_number",
            jsonLookup fields "fix_suggestion" with
      | some (.str sev), some (.str iss), some (.str fp),
        some (.num ln), some (.str fix) => some ⟨sev, iss, fp, ln, fix⟩
      | _, _, _, _, _ => none
  | _ => none

/-- Model of `AuditorAgent._parse_response`.  The argument `parsed` is the result of
`json.loads(response.text)` (`Except.error` for a `JSONDecodeError`).  A
non-list value is wrapped into a one-element list (`raw = [raw]`); each
item gets `file_path` defaulted to the scanned unit and is validated,
malformed items being skipped. -/
def parse_response (parsed : Except String Json) (fallback_path : String) :
    List Vulnerability :=
  match parsed with
  | .error _ => []
  | .ok raw =>
      let items := match raw with
        | .arr xs => xs
        | j => [j]
      items.filterMap (fun item => validateVuln (setDefaultFilePath item fallback_path))

/-! ## Gemini responses and thought signatures
(`SentinelOrchestrator.extract_thought_signatures` in `app/orchestrator.py`) -/

/-- One `Part` of a Gemini response: a thought flag, its text, and the
optional opaque `thought_signature` byte blob. -/
structure ResponsePart where
  thought : Bool
  text : String
  thought_signature : Option (List Nat)

/-- A `GenerateContentResponse`: the parts of each candidate's content,
the raw `response.text`, and `jsonText`, the result of
`json.loads(response.text)` as produced by the `json` library (used only
by the auditor). -/
structure Response where
  candidates : List (List ResponsePart)
  text : String
  jsonText : Except String Json

/-- The base64 alphabet. -/
def b64Alphabet : List Char :=
  "ABCDEFGHIJKLMNOPQRSTUVWXYZabcdefghijklmnopqrstuvwxyz0123456789+/".toList

/-- The base64 digit for a 6-bit value. -/
def b64Char (n : Nat) : Char := b64Alphabet.getD n 'A'

/-- Standard base64 of a byte list (values `< 256`), with `=` padding, as
computed by Python's `base64.b64encode`. -/
def b64EncodeList : List Nat → List Char
  | [] => []
  | [a] => [b64Char (a / 4), b64Char (a % 4 * 16), '=', '=']
  | [a, b] => [b64Char (a / 4), b64Char (a % 4 * 16 + b / 16), b64Char (b % 16 * 4), '=']
  | a :: b :: c :: rest =>
      b64Char (a / 4) :: b64Char (a % 4 * 16 + b / 16) ::
      b64Char (b % 16 * 4 + c / 64) :: b64Char (c % 64) :: b64EncodeList rest

/-- Model of `base64.b64encode(sig).decode("ascii")`. -/
def b64Encode (bytes : List Nat) : String := String.mk (b64EncodeList bytes)

/-- The 6-bit value of one base64 digit. -/
def b64DigitVal (c : Char) : Option Nat :=
  (b64Alphabet.findIdx? (fun d => d = c))

/-- Base64 decoding, inverse of `b64Encode` on byte lists. -/
def b64DecodeList : List Char → Option (List Nat)
  | [] => some []
  | w :: x :: y :: z :: rest =>
      match b64DigitVal w, b64DigitVal x with
      | some a, some b =>
          if y = '=' then
            if z = '=' ∧ rest = [] then some [a * 4 + b / 16] else none
          else
            match b64DigitVal y with
            | some c =>
                if z = '=' then
                  if rest = [] then some [a * 4 + b / 16, b % 16 * 16 + c / 4]
                  else none
                else
                  match b64DigitVal z, b64DecodeList rest with
                  | some d, some tl =>
                      some ((a * 4 + b / 16) :: (b % 16 * 16 + c / 4) ::
                        (c % 4 * 64 + d) :: tl)
                  | _, _ => none
            | none => none
      | _, _ => none
  | _ => none

/-- Base64 decoding on strings. -/
def b64Decode (s : String) : Option (List Nat) := b64DecodeList s.toList

/-- Python string slicing `s[:n]`: the first `n` characters. -/
def takeChars (s : String) (n : Nat) : String := String.mk (s.toList.take n)

/-- Model of `SentinelOrchestrator.extract_thought_signatures`: the
`(thought_text[:500], base64(thought_signature))` pairs of every part that
is a thought and carries a non-empty signature blob. -/
def extract_thought_signatures (r : Response) : List (String × String) :=
  (r.candidates.flatten).filterMap (fun p =>
    match p.thought_signature with
    | some bs =>
        if p.thought ∧ bs ≠ [] then
          some (takeChars p.text 500, b64Encode bs)
        else none
    | none => none)

/-- Signature extraction from an optional last response (empty when the
agent has not stored a response yet). -/
def sigsOfLast (r : Option Response) : List (String × String) :=
  match r with
  | some resp => extract_thought_signatures resp
  | none => []

/-! ## Retry / backoff / fallback engine
(`AuditorAgent._call_with_fallback` in `app/agents/auditor.py` and
`FixerAgent._generate_with_fallback` in `app/agents/fixer.py`).

An inference call is modelled by an environment mapping the model
identifier and a global call counter to the call's outcome.  Sleeps are
recorded as traces (in the code's time unit, seconds). -/

/-- Outcome of one `generate_content` call: a response, a 429
`ClientError` (quota exceeded), another `ClientError`, or any other
exception. -/
inductive CallOutcome where
  | ok (r : Response)
  | quota (msg : String)
  | clientErr (msg : String)
  | otherErr (msg : String)

/-- The remote service: model identifier and global call index to
outcome. -/
def InferenceEnv : Type := String → Nat → CallOutcome

/-- Model of `_MAX_RETRIES = 3` (same constant in auditor and fixer). -/
def MAX_RETRIES : Nat := 3

/-- Model of `_BASE_DELAY = 2.0` time units. -/
def BASE_DELAY : Nat := 2

/-- The attempt numbers `range(1, _MAX_RETRIES + 1) = [1, 2, 3]`. -/
def attemptNumbers : List Nat := List.range' 1 MAX_RETRIES

/-- How the `for attempt in range(1, _MAX_RETRIES + 1)` loop ends. -/
inductive LoopExit where
  | got (r : Response)
  | clientFail (m : String)
  | otherFail (m : String)
  | exhausted

/-- Trace of one run of the attempt loop: how it ended, the back-off
sleeps performed, the number of calls issued, the retained last
quota error, and the next global call index. -/
structure LoopOut where
  exit : LoopExit
  sleeps : List Nat
  ncalls : Nat
  lastErr : Option String
  nextIdx : Nat

/-- The attempt loop shared verbatim by `AuditorAgent._call_with_fallback`
and `FixerAgent._generate_with_fallback`: up to three calls against one
model; a 429 sleeps `_BASE_DELAY * 2 ** (attempt - 1)` and retries, any
other outcome ends the loop at once. -/
def retryLoop (env : InferenceEnv) (model : String) :
    List Nat → Nat → Option String → LoopOut
  | [], idx, le => ⟨.exhausted, [], 0, le, idx⟩
  | a :: rest, idx, le =>
      match env model idx with
      | .ok r => ⟨.got r, [], 1, le, idx + 1⟩
      | .clientErr m => ⟨.clientFail m, [], 1, le, idx + 1⟩
      | .otherErr m => ⟨.otherFail m, [], 1, le, idx + 1⟩
      | .quota m =>
          let L := retryLoop env model rest (idx + 1) (some m)
          ⟨L.exit, BASE_DELAY * 2 ^ (a - 1) :: L.sleeps, L.ncalls + 1, L.lastErr, L.nextIdx⟩

/-! ## Auditor agent (`app/agents/auditor.py`) -/

/-- The auditor's instance state: inherited model-selection state,
`last_response` and `_accumulated_thinking`. -/
structure AuditorState where
  agent : AgentState
  last_response : Option Response
  accumulated_thinking : List String

/-- Model of `AuditorAgent._accumulate_thinking`: collect thought texts of the
response and append one tagged block when any were found. -/
def accumulate_thinking (acc : List String) (r : Response) (rel_path : String) :
    List String :=
  let parts := r.candidates.flatten.filterMap
    (fun p => if p.thought ∧ p.text ≠ "" then some p.text else none)
  if parts.isEmpty then acc
  else acc ++ ["── " ++ rel_path ++ " ──\n" ++ String.intercalate "\n" parts]

/-- Result of `AuditorAgent._call_with_fallback` on one file, with its
observable trace: findings, updated state, back-off sleeps, the model of
each call issued, the number of `switch_to_fallback` requests, the
retained last quota error, and the next global call index. -/
structure AuditorCallResult where
  vulns : List Vulnerability
  state : AuditorState
  sleeps : List Nat
  calls : List String
  switch_requests : Nat
  lastErr : Option String
  nextIdx : Nat

/-- Model of `AuditorAgent._call_with_fallback`: run the attempt loop against the
active model; on a response store it, accumulate thinking and parse; on a
non-quota error return no findings; when all attempts were rate-limited,
request a fallback switch and on success rerun the whole call, else return
no findings keeping the last error. -/
def auditor_call_with_fallback (env : InferenceEnv) (rel_path : String)
    (st : AuditorState) (idx : Nat) : AuditorCallResult :=
  let model := st.agent.active_model
  let L := retryLoop env model attemptNumbers idx none
  match L.exit with
  | .got r =>
      ⟨parse_response r.jsonText rel_path,
       { st with last_response := some r,
                 accumulated_thinking := accumulate_thinking st.accumulated_thinking r rel_path },
       L.sleeps, List.replicate L.ncalls model, 0, L.lastErr, L.nextIdx⟩
  | .clientFail _ => ⟨[], st, L.sleeps, List.replicate L.ncalls model, 0, L.lastErr, L.nextIdx⟩
  | .otherFail _ => ⟨[], st, L.sleeps, List.replicate L.ncalls model, 0, L.lastErr, L.nextIdx⟩
  | .exhausted =>
      match h : st.agent.switch_to_fallback with
      | (true, ag2) =>
          let R := auditor_call_with_fallback env rel_path { st with agent := ag2 } L.nextIdx
          ⟨R.vulns, R.state, L.sleeps ++ R.sleeps, List.replicate L.ncalls model ++ R.calls,
           R.switch_requests + 1, R.lastErr, R.nextIdx⟩
      | (false, _) => ⟨[], st, L.sleeps, List.replicate L.ncalls model, 1, L.lastErr, L.nextIdx⟩
  termination_by (if st.agent.using_fallback then 0 else 1)
  decreasing_by
    simp_wf
    unfold AgentState.switch_to_fallback at h
    split at h
    · exact absurd (congrArg Prod.fst h) (by simp)
    · split at h
      · exact absurd (congrArg Prod.fst h) (by simp)
      · have h2 : ({ st.agent with using_fallback := true } : AgentState) = ag2 :=
          congrArg Prod.snd h
        have hag : ag2.using_fallback = true := by rw [← h2]
        rename_i hc _
        simp only [Bool.not_eq_true] at hc
        simp [hag, hc]

/-- Model of `AuditorAgent.analyze_repository`'s scanning loop: one
`_call_with_fallback` per file, sequentially, threading the agent state
and the global call counter (the one-time-unit pacing sleeps between
files are not observable in the claims and are not traced). -/
def scanFiles (env : InferenceEnv) :
    List (String × String) → AuditorState → Nat →
    List (List Vulnerability) × AuditorState × Nat
  | [], st, idx => ([], st, idx)
  | (rel, _content) :: rest, st, idx =>
      let R := auditor_call_with_fallback env rel st idx
      let (vss, st2, idx2) := scanFiles env rest R.state R.nextIdx
      (R.vulns :: vss, st2, idx2)

/-- Model of `AuditorAgent.analyze_repository` over an already-collected file
mapping (`_collect_files` is the excluded file-collection collaborator):
returns the flattened findings, the number of files scanned, and the
updated agent state. -/
def analyze_repository (env : InferenceEnv) (files : List (String × String))
    (st : AuditorState) (root : String) : AuditResult × AuditorState :=
  if files.isEmpty then (⟨[], 0, root⟩, st)
  else
    let (vss, st2, _) := scanFiles env files st 0
    (⟨vss.flatten, files.length, root⟩, st2)

/-! ## Fixer agent (`app/agents/fixer.py`) -/

/-- The fixer's instance state. -/
structure FixerState where
  agent : AgentState
  last_response : Option Response

/-- Result of `FixerAgent._generate_with_fallback` with its observable
trace (same components as for the auditor). -/
structure FixerCallResult where
  patch : PatchResult
  state : FixerState
  sleeps : List Nat
  calls : List String
  switch_requests : Nat
  lastErr : Option String
  nextIdx : Nat

/-- Model of `FixerAgent._generate_with_fallback` (blocking path, as used by the
orchestrator where `on_thinking` is `None`): run the attempt loop; on a
response store it and extract the code, failing with an explicit message
when the extraction is empty; a non-quota error fails at once; when all
attempts were rate-limited, request a fallback switch and on success rerun
the whole call, else fail with the rate-limited message, keeping the last
error. -/
def generate_with_fallback (env : InferenceEnv) (v : Vulnerability)
    (original_code : String) (st : FixerState) (idx : Nat) : FixerCallResult :=
  let model := st.agent.active_model
  let L := retryLoop env model attemptNumbers idx none
  match L.exit with
  | .got r =>
      let st2 := { st with last_response := some r }
      let raw_text := r.text
      let fixed_code := extract_code raw_text
      if stripStr fixed_code = "" then
        ⟨⟨v.file_path, original_code, "", false, "Gemini returned an empty response."⟩,
         st2, L.sleeps, List.replicate L.ncalls model, 0, L.lastErr, L.nextIdx⟩
      else
        ⟨⟨v.file_path, original_code, fixed_code, true,
          "Patch generated successfully (model=" ++ model ++ ")."⟩,
         st2, L.sleeps, List.replicate L.ncalls model, 0, L.lastErr, L.nextIdx⟩
  | .clientFail m =>
      ⟨⟨v.file_path, original_code, "", false, "Gemini error: " ++ m⟩,
       st, L.sleeps, List.replicate L.ncalls model, 0, L.lastErr, L.nextIdx⟩
  | .otherFail m =>
      ⟨⟨v.file_path, original_code, "", false, "Unexpected error: " ++ m⟩,
       st, L.sleeps, List.replicate L.ncalls model, 0, L.lastErr, L.nextIdx⟩
  | .exhausted =>
      match h : st.agent.switch_to_fallback with
      | (true, ag2) =>
          let R := generate_with_fallback env v original_code { st with agent := ag2 } L.nextIdx
          ⟨R.patch, R.state, L.sleeps ++ R.sleeps, List.replicate L.ncalls model ++ R.calls,
           R.switch_requests + 1, R.lastErr, R.nextIdx⟩
      | (false, _) =>
          ⟨⟨v.file_path, original_code, "", false,
            "Rate-limited after 3 retries on both models."⟩,
           st, L.sleeps, List.replicate L.ncalls model, 1, L.lastErr, L.nextIdx⟩
  termination_by (if st.agent.using_fallback then 0 else 1)
  decreasing_by
    simp_wf
    unfold AgentState.switch_to_fallback at h
    split at h
    · exact absurd (congrArg Prod.fst h) (by simp)
    · split at h
      · exact absurd (congrArg Prod.fst h) (by simp)
      · have h2 : ({ st.agent with using_fallback := true } : AgentState) = ag2 :=
          congrArg Prod.snd h
        have hag : ag2.using_fallback = true := by rw [← h2]
        rename_i hc _
        simp only [Bool.not_eq_true] at hc
        simp [hag, hc]

/-! ## Orchestrator (`app/orchestrator.py`)

`run_self_healing_cycle` is modelled with explicit oracles for the
external effects of each fix attempt `k`: the text of a read error
(`readErrMsgs k`), the text of a backup-copy error (`copyErrMsgs k`), the
UTC timestamp read inside `_write_patch` (`tss k`), and whether the backup
copy succeeds (`copyOks k`).  The run identifier and per-entry wall-clock
timestamps are opaque inputs; JSON serialization of the manifest document
is outside the model (the manifest is kept structured). -/

/-- Model of `HealingEntry` (pydantic model). -/
structure HealingEntry where
  vulnerability : Vulnerability
  patch : PatchResult
  healed : Bool
deriving DecidableEq

/-- Model of `HealingCycleSummary` (pydantic model). -/
structure HealingCycleSummary where
  run_id : String
  repository_path : String
  scanned_files : Nat
  vulnerabilities_found : Nat
  vulnerabilities_healed : Nat
  entries : List HealingEntry

/-- One record of the persisted manifest, as built by
`SentinelOrchestrator._build_manifest_entry` (the wall-clock timestamp
field is not modelled). -/
structure ManifestEntry where
  stage : String
  file_path : String
  line_number : Int
  severity : String
  issue : String
  healed : Bool
  patch_message : String
  auditor_sigs : List (String × String)
  fixer_sigs : List (String × String)

/-- The persisted `run_manifest.json` document. -/
structure Manifest where
  run_id : String
  repository : String
  scanned_files : Nat
  vulnerabilities_found : Nat
  vulnerabilities_healed : Nat
  entries : List ManifestEntry

/-- Model of `root / vuln.file_path`. -/
def joinPath (root p : String) : String := root ++ "/" ++ p

/-- The exception text of a `_write_patch` failure: the
`FileNotFoundError` message for a missing target, or the backup-copy
error text supplied by the oracle. -/
def writeErrMsg (e : WriteErr) (target copyErrMsg : String) : String :=
  match e with
  | .notFound => "File not found: " ++ target
  | .backupFailed => copyErrMsg

/-- Model of `SentinelOrchestrator._build_manifest_entry` plus the
`last_response` truthiness checks at its call site. -/
def buildManifestEntry (v : Vulnerability) (healed : Bool) (patch : PatchResult)
    (auditorLast fixerLast : Option Response) : ManifestEntry :=
  ⟨"fixer", v.file_path, v.line_number, v.severity, v.issue, healed, patch.message,
   sigsOfLast auditorLast, sigsOfLast fixerLast⟩

/-- Outcome of processing one finding in the fixing loop. -/
structure FindingOutcome where
  entry : HealingEntry
  mentry : Option ManifestEntry
  healedInc : Nat
  state : FixerState
  fs : FS
  nextIdx : Nat

/-- The body of the per-finding loop in
`SentinelOrchestrator.run_self_healing_cycle`: read the unit's current
content (a read error records a failed entry and `continue`s, appending no
manifest record); generate the patch; apply it when generation succeeded
with non-empty code, an apply exception turning the entry unhealed and
extending the patch message; finally append the healing entry and the
manifest record carrying the signatures of the auditor's and the fixer's
current `last_response`. -/
def processFinding (fixEnv : InferenceEnv) (root : String)
    (auditorLast : Option Response) (readErrMsg copyErrMsg ts : String)
    (copyOk : Bool) (v : Vulnerability) (st : FixerState) (fs : FS)
    (idx : Nat) : FindingOutcome :=
  match fs (joinPath root v.file_path) with
  | none =>
      ⟨⟨v, ⟨v.file_path, "", "", false, "File read error: " ++ readErrMsg⟩, false⟩,
       none, 0, st, fs, idx⟩
  | some original_code =>
      let R := generate_with_fallback fixEnv v original_code st idx
      if R.patch.success ∧ R.patch.fixed_code ≠ "" then
        match write_patch fs (joinPath root v.file_path) R.patch.fixed_code ts copyOk with
        | (fs2, none) =>
            ⟨⟨v, R.patch, true⟩,
             some (buildManifestEntry v true R.patch auditorLast R.state.last_response),
             1, R.state, fs2, R.nextIdx⟩
        | (fs2, some e) =>
            let patch2 := { R.patch with
              message := R.patch.message ++ " | Apply failed: " ++
                writeErrMsg e (joinPath root v.file_path) copyErrMsg }
            ⟨⟨v, patch2, false⟩,
             some (buildManifestEntry v false patch2 auditorLast R.state.last_response),
             0, R.state, fs2, R.nextIdx⟩
      else
        ⟨⟨v, R.patch, false⟩,
         some (buildManifestEntry v false R.patch auditorLast R.state.last_response),
         0, R.state, fs, R.nextIdx⟩

/-- Stage 2 of the cycle: process the findings in discovery order,
threading the fixer state, the filesystem and the global call counter
(the pacing sleeps between findings are not traced).  Returns the healing
entries, the manifest records, the healed count, and the final state. -/
def fixVulns (fixEnv : InferenceEnv) (root : String) (auditorLast : Option Response)
    (readErrMsgs copyErrMsgs tss : Nat → String) (copyOks : Nat → Bool) :
    List Vulnerability → Nat → FixerState → FS → Nat →
    List HealingEntry × List ManifestEntry × Nat × FixerState × FS × Nat
  | [], _, st, fs, idx => ([], [], 0, st, fs, idx)
  | v :: rest, k, st, fs, idx =>
      let F := processFinding fixEnv root auditorLast (readErrMsgs k) (copyErrMsgs k)
        (tss k) (copyOks k) v st fs idx
      let (es, ms, hc, st2, fs2, idx2) := fixVulns fixEnv root auditorLast readErrMsgs
        copyErrMsgs tss copyOks rest (k + 1) F.state F.fs F.nextIdx
      (F.entry :: es, F.mentry.toList ++ ms, F.healedInc + hc, st2, fs2, idx2)

/-- Result of one full healing cycle: the returned summary, the persisted
manifest, and the final filesystem and agent states. -/
structure CycleResult where
  summary : HealingCycleSummary
  manifest : Manifest
  fs : FS
  auditorState : AuditorState
  fixerState : FixerState

/-- Model of `SentinelOrchestrator.run_self_healing_cycle`: audit, then either end
early on zero findings (writing a manifest with no entries) or fix each
finding and write the full manifest. -/
def run_self_healing_cycle (auditEnv fixEnv : InferenceEnv) (run_id root : String)
    (files : List (String × String)) (readErrMsgs copyErrMsgs tss : Nat → String)
    (copyOks : Nat → Bool) (auditorSt : AuditorState) (fixerSt : FixerState)
    (fs : FS) : CycleResult :=
  let (audit_result, ast2) := analyze_repository auditEnv files auditorSt root
  let vulns := audit_result.vulnerabilities
  if vulns.isEmpty then
    ⟨⟨run_id, root, audit_result.scanned_files, 0, 0, []⟩,
     ⟨run_id, root, audit_result.scanned_files, 0, 0, []⟩, fs, ast2, fixerSt⟩
  else
    let (entries, mentries, healed_count, fst2, fs2, _) :=
      fixVulns fixEnv root ast2.last_response readErrMsgs copyErrMsgs tss copyOks
        vulns 0 fixerSt fs 0
    ⟨⟨run_id, root, audit_result.scanned_files, vulns.length, healed_count, entries⟩,
     ⟨run_id, root, audit_result.scanned_files, vulns.length, healed_count, mentries⟩,
     fs2, ast2, fst2⟩

/-! ## Helper lemmas -/

theorem dropWhile_head_not {α} (p : α → Bool) (l : List α) :
    ∀ c rest, l.dropWhile p = c :: rest → p c = false := by
  induction l with
  | nil => intro c rest h; simp at h
  | cons a t ih =>
      intro c rest h
      rw [List.dropWhile_cons] at h
      split at h
      · exact ih _ _ h
      · rename_i hpa
        injection h with h1 _
        subst h1
        simpa [Bool.not_eq_true] using hpa

theorem pySplitName_append (name : List Char) :
    (pySplitName name).1 ++ (pySplitName name).2 = name := by
  unfold pySplitName
  have hsplit := List.takeWhile_append_dropWhile
    (p := fun c => decide (c ≠ '.')) (l := name.reverse)
  cases hd : name.reverse.dropWhile (fun c => decide (c ≠ '.')) with
  | nil => simp [hd]
  | cons c restTail =>
      have hc : c = '.' := by
        have := dropWhile_head_not (fun c => decide (c ≠ '.')) name.reverse c restTail hd
        simpa using this
      rw [hd] at hsplit
      simp only [hd]
      split_ifs with h1 h2
      · simp
      · simp
      · subst hc
        have : name = restTail.reverse ++ '.' :: (name.reverse.takeWhile
            (fun c => decide (c ≠ '.'))).reverse := by
          have := congrArg List.reverse hsplit
          simpa [List.reverse_append] using this.symm
        simpa using this.symm

theorem splitLastSlash_append (p : List Char) :
    (splitLastSlash p).1 ++ (splitLastSlash p).2 = p := by
  unfold splitLastSlash
  have h := List.takeWhile_append_dropWhile
    (p := fun c => decide (c ≠ '/')) (l := p.reverse)
  calc (p.reverse.dropWhile (fun c => decide (c ≠ '/'))).reverse ++
        (p.reverse.takeWhile (fun c => decide (c ≠ '/'))).reverse
      = ((p.reverse.takeWhile (fun c => decide (c ≠ '/'))) ++
         (p.reverse.dropWhile (fun c => decide (c ≠ '/')))).reverse := by
        rw [List.reverse_append]
    _ = p := by rw [h, List.reverse_reverse]

theorem backupPath_eq (p ts : String) : backupPath p ts = p ++ ".bak." ++ ts := by
  apply String.ext
  show pyWithSuffix p.toList (pySuffix p.toList ++ (".bak." ++ ts).toList) = _
  unfold pyWithSuffix pySuffix
  have h1 := splitLastSlash_append p.toList
  have h2 := pySplitName_append (splitLastSlash p.toList).2
  calc (splitLastSlash p.toList).1 ++ (pySplitName (splitLastSlash p.toList).2).1 ++
        ((pySplitName (splitLastSlash p.toList).2).2 ++ (".bak." ++ ts).toList)
      = ((splitLastSlash p.toList).1 ++ ((pySplitName (splitLastSlash p.toList).2).1 ++
         (pySplitName (splitLastSlash p.toList).2).2)) ++ (".bak." ++ ts).toList := by
        simp [List.append_assoc]
    _ = p.toList ++ (".bak." ++ ts).toList := by rw [h2, h1]
    _ = (p ++ ".bak." ++ ts).data := by
        simp [String.data_append, List.append_assoc]

theorem backupPath_ne (p ts : String) : backupPath p ts ≠ p := by
  rw [backupPath_eq]
  intro h
  have h2 := congrArg String.length h
  rw [String.length_append, String.length_append] at h2
  have h5 : (".bak." : String).length = 5 := rfl
  rw [h5] at h2
  omega

theorem backupPath_inj (p ts1 ts2 : String) (h : backupPath p ts1 = backupPath p ts2) :
    ts1 = ts2 := by
  rw [backupPath_eq, backupPath_eq] at h
  have hd := congrArg String.data h
  simp only [String.data_append] at hd
  rw [List.append_assoc, List.append_assoc] at hd
  have := List.append_cancel_left hd
  have := List.append_cancel_left this
  exact String.ext this

/-! ## Claims -/

/-- C2: `switch_to_fallback` is a `false`-returning no-op when already on
fallback or when the primary and fallback identifiers are equal; a
`true`-returning call moves the agent to fallback, after which every call
is a `false`-returning no-op; a `false`-returning call changes nothing;
the fallback flag is monotone, and once on fallback the active model is
the fallback identifier and never reverts. -/
theorem fallback_monotonic (s : AgentState) :
    (s.using_fallback = true → s.switch_to_fallback = (false, s)) ∧
    (s.model = s.fallback_model → s.switch_to_fallback = (false, s)) ∧
    (s.switch_to_fallback.1 = true →
      s.switch_to_fallback.2.using_fallback = true ∧
      s.switch_to_fallback.2.switch_to_fallback = (false, s.switch_to_fallback.2) ∧
      s.switch_to_fallback.2.active_model = s.fallback_model) ∧
    (s.switch_to_fallback.1 = false → s.switch_to_fallback.2 = s) ∧
    (s.using_fallback = true → s.switch_to_fallback.2.using_fallback = true ∧
      s.switch_to_fallback.2.active_model = s.fallback_model ∧
      s.active_model = s.fallback_model) := by
  unfold AgentState.switch_to_fallback AgentState.active_model
  split_ifs with h1 h2 <;> simp_all

/-- Witness for C2 at a concrete state. -/
theorem fallback_monotonic_witness :
    (AgentState.mk "gemini-3-flash-preview" "gemini-3-pro-preview" false).switch_to_fallback.1
        = true ∧
    (AgentState.mk "gemini-3-flash-preview" "gemini-3-pro-preview" false).switch_to_fallback.2.switch_to_fallback
      = (false,
         (AgentState.mk "gemini-3-flash-preview" "gemini-3-pro-preview" false).switch_to_fallback.2) := by
  refine ⟨by decide, ?_⟩
  exact ((fallback_monotonic
    (AgentState.mk "gemini-3-flash-preview" "gemini-3-pro-preview" false)).2.2.1
    (by decide)).2.1

/-- C3: the application guard fails with a not-found error leaving the
filesystem unchanged when the target is missing; otherwise, when the
backup copy succeeds, the backup sibling (the target path suffixed with
`.bak.` and the timestamp) holds the pre-write content and the target
holds the new content; when the backup copy fails, an error is reported
and the target is never overwritten. -/
theorem write_patch_guard (fs : FS) (p new ts : String) (copyOk : Bool) :
    (fs p = none → write_patch fs p new ts copyOk = (fs, some .notFound)) ∧
    (∀ orig, fs p = some orig →
      (copyOk = true →
        (write_patch fs p new ts copyOk).2 = none ∧
        (write_patch fs p new ts copyOk).1 (backupPath p ts) = some orig ∧
        (write_patch fs p new ts copyOk).1 p = some new) ∧
      (copyOk = false →
        write_patch fs p new ts copyOk = (fs, some .backupFailed))) ∧
    backupPath p ts = p ++ ".bak." ++ ts := by
  refine ⟨?_, ?_, backupPath_eq p ts⟩
  · intro h
    unfold write_patch
    rw [h]
  · intro orig h
    constructor
    · intro hc
      subst hc
      unfold write_patch
      rw [h]
      refine ⟨rfl, ?_, ?_⟩
      · simp [FS.write, backupPath_ne p ts]
      · simp [FS.write]
    · intro hc
      unfold write_patch
      rw [h]
      simp [hc]

/-- Witness for C3 at a concrete filesystem. -/
theorem write_patch_guard_witness :
    (fun q => if q = "root/a.py" then some "old" else none : FS) "root/a.py" = some "old" ∧
    (write_patch (fun q => if q = "root/a.py" then some "old" else none) "root/a.py"
        "new" "20250101T000000Z" true).1 (backupPath "root/a.py" "20250101T000000Z")
      = some "old" := by
  refine ⟨by decide, ?_⟩
  exact (((write_patch_guard (fun q => if q = "root/a.py" then some "old" else none)
    "root/a.py" "new" "20250101T000000Z" true).2.1 "old" (by decide)).1 rfl).2.1

/-- C8 counterexample: two successive applications of the guard to the
same existing file with the same new content, both within the same UTC
second (equal timestamp strings, as `strftime("%Y%m%dT%H%M%SZ")` has
one-second resolution), use the same backup path, and the second
application overwrites the first backup: afterwards the backup holds the
new content, not the original, so the two applications did not produce
two distinct backup files. -/
theorem backup_overwritten_same_second :
    backupPath "root/a.py" "20250101T000000Z" = backupPath "root/a.py" "20250101T000000Z" ∧
    (write_patch
      (write_patch (fun q => if q = "root/a.py" then some "old" else none)
        "root/a.py" "new" "20250101T000000Z" true).1
      "root/a.py" "new" "20250101T000000Z" true).1
        (backupPath "root/a.py" "20250101T000000Z") = some "new" ∧
    ((some "new" : Option String) ≠ some "old") := by
  refine ⟨rfl, by decide, by decide⟩

/-- C8 (amended): two successive applications of the guard with the same
new content to the same existing file, carrying distinct timestamp
strings, produce two distinct backups — the first backup is not deleted
or overwritten and holds the pre-first-write content, the second holds the
content after the first write — and the final target content is the same
as after a single application. -/
theorem write_patch_twice (fs : FS) (p new ts1 ts2 orig : String)
    (h : fs p = some orig) (hts : ts1 ≠ ts2) :
    backupPath p ts1 ≠ backupPath p ts2 ∧
    (write_patch (write_patch fs p new ts1 true).1 p new ts2 true).1 (backupPath p ts1)
      = some orig ∧
    (write_patch (write_patch fs p new ts1 true).1 p new ts2 true).1 (backupPath p ts2)
      = some new ∧
    (write_patch (write_patch fs p new ts1 true).1 p new ts2 true).2 = none ∧
    (write_patch (write_patch fs p new ts1 true).1 p new ts2 true).1 p
      = (write_patch fs p new ts1 true).1 p := by
  have hne : backupPath p ts1 ≠ backupPath p ts2 := fun he => hts (backupPath_inj p ts1 ts2 he)
  set g : FS := (write_patch fs p new ts1 true).1 with hg
  have hA : g p = some new := by
    rw [hg]
    unfold write_patch
    rw [h]
    simp [FS.write]
  have hB : g (backupPath p ts1) = some orig := by
    rw [hg]
    unfold write_patch
    rw [h]
    simp [FS.write, backupPath_ne p ts1]
  refine ⟨hne, ?_, ?_, ?_, ?_⟩
  · unfold write_patch
    rw [hA]
    simp [FS.write, backupPath_ne p ts1, hne, hB]
  · unfold write_patch
    rw [hA]
    simp [FS.write, backupPath_ne p ts2]
  · unfold write_patch
    rw [hA]
    simp
  · unfold write_patch
    rw [hA]
    simp [FS.write, hA]

/-- Witness for C8 (amended) at a concrete filesystem and distinct
timestamps. -/
theorem write_patch_twice_witness :
    (fun q => if q = "root/a.py" then some "old" else none : FS) "root/a.py" = some "old" ∧
    ("20250101T000000Z" : String) ≠ "20250101T000001Z" ∧
    (write_patch (write_patch (fun q => if q = "root/a.py" then some "old" else none)
        "root/a.py" "new" "20250101T000000Z" true).1
        "root/a.py" "new" "20250101T000001Z" true).1
      (backupPath "root/a.py" "20250101T000000Z") = some "old" := by
  refine ⟨by decide, by decide, ?_⟩
  exact (write_patch_twice (fun q => if q = "root/a.py" then some "old" else none)
    "root/a.py" "new" "20250101T000000Z" "20250101T000001Z" "old"
    (by decide) (by decide)).2.1

/-- The number of files scanned is always the size of the collected file
mapping. -/
theorem analyze_repository_scanned (env : InferenceEnv) (files : List (String × String))
    (st : AuditorState) (root : String) :
    (analyze_repository env files st root).1.scanned_files = files.length := by
  unfold analyze_repository
  split_ifs with h
  · simp [List.isEmpty_iff.mp (by simpa using h)]
  · rfl

/-- C9: when the audit stage returns zero findings the cycle ends early:
the summary reports zero findings and zero healed, carries no entries,
still reports the number of files scanned, the persisted manifest has an
empty entry list, and the filesystem is untouched. -/
theorem zero_findings_early_end (auditEnv fixEnv : InferenceEnv) (run_id root : String)
    (files : List (String × String)) (readErrMsgs copyErrMsgs tss : Nat → String)
    (copyOks : Nat → Bool) (auditorSt : AuditorState) (fixerSt : FixerState) (fs : FS)
    (h : (analyze_repository auditEnv files auditorSt root).1.vulnerabilities = []) :
    (run_self_healing_cycle auditEnv fixEnv run_id root files readErrMsgs copyErrMsgs tss
        copyOks auditorSt fixerSt fs).summary.vulnerabilities_found = 0 ∧
    (run_self_healing_cycle auditEnv fixEnv run_id root files readErrMsgs copyErrMsgs tss
        copyOks auditorSt fixerSt fs).summary.vulnerabilities_healed = 0 ∧
    (run_self_healing_cycle auditEnv fixEnv run_id root files readErrMsgs copyErrMsgs tss
        copyOks auditorSt fixerSt fs).summary.entries = [] ∧
    (run_self_healing_cycle auditEnv fixEnv run_id root files readErrMsgs copyErrMsgs tss
        copyOks auditorSt fixerSt fs).manifest.entries = [] ∧
    (run_self_healing_cycle auditEnv fixEnv run_id root files readErrMsgs copyErrMsgs tss
        copyOks auditorSt fixerSt fs).summary.scanned_files = files.length ∧
    (run_self_healing_cycle auditEnv fixEnv run_id root files readErrMsgs copyErrMsgs tss
        copyOks auditorSt fixerSt fs).fs = fs := by
  unfold run_self_healing_cycle
  rw [← analyze_repository_scanned auditEnv files auditorSt root]
  simp [h]

/-- Witness for C9 at a concrete run whose audit returns an empty findings
array for its single file. -/
theorem zero_findings_early_end_witness :
    (run_self_healing_cycle (fun _ _ => .ok ⟨[], "", .ok (.arr [])⟩)
        (fun _ _ => .ok ⟨[], "", .ok (.arr [])⟩) "run1" "root" [("a.py", "code")]
        (fun _ => "r") (fun _ => "c") (fun _ => "T") (fun _ => true)
        ⟨⟨"m", "f", false⟩, none, []⟩ ⟨⟨"m", "f", false⟩, none⟩
        (fun _ => none)).summary.vulnerabilities_found = 0 ∧
    (run_self_healing_cycle (fun _ _ => .ok ⟨[], "", .ok (.arr [])⟩)
        (fun _ _ => .ok ⟨[], "", .ok (.arr [])⟩) "run1" "root" [("a.py", "code")]
        (fun _ => "r") (fun _ => "c") (fun _ => "T") (fun _ => true)
        ⟨⟨"m", "f", false⟩, none, []⟩ ⟨⟨"m", "f", false⟩, none⟩
        (fun _ => none)).manifest.entries = [] ∧
    (run_self_healing_cycle (fun _ _ => .ok ⟨[], "", .ok (.arr [])⟩)
        (fun _ _ => .ok ⟨[], "", .ok (.arr [])⟩) "run1" "root" [("a.py", "code")]
        (fun _ => "r") (fun _ => "c") (fun _ => "T") (fun _ => true)
        ⟨⟨"m", "f", false⟩, none, []⟩ ⟨⟨"m", "f", false⟩, none⟩
        (fun _ => none)).summary.scanned_files = 1 := by
  have h : (analyze_repository (fun _ _ => .ok ⟨[], "", .ok (.arr [])⟩)
      [("a.py", "code")] ⟨⟨"m", "f", false⟩, none, []⟩ "root").1.vulnerabilities = [] := by
    simp [analyze_repository, scanFiles, auditor_call_with_fallback, retryLoop,
      attemptNumbers, MAX_RETRIES, parse_response]
  have H := zero_findings_early_end (fun _ _ => .ok ⟨[], "", .ok (.arr [])⟩)
    (fun _ _ => .ok ⟨[], "", .ok (.arr [])⟩) "run1" "root" [("a.py", "code")]
    (fun _ => "r") (fun _ => "c") (fun _ => "T") (fun _ => true)
    ⟨⟨"m", "f", false⟩, none, []⟩ ⟨⟨"m", "f", false⟩, none⟩ (fun _ => none) h
  exact ⟨H.1, H.2.2.2.1, H.2.2.2.2.1⟩

/-- A successful fixer generation never carries empty fixed code
(auxiliary case: agent already on fallback). -/
theorem generate_success_nonempty_aux (env : InferenceEnv) (v : Vulnerability)
    (oc : String) (st : FixerState) (idx : Nat) (hf : st.agent.using_fallback = true) :
    (generate_with_fallback env v oc st idx).patch.success = true →
    (generate_with_fallback env v oc st idx).patch.fixed_code ≠ "" := by
  rw [generate_with_fallback]
  split
  · dsimp only
    split
    · intro h; simp at h
    · rename_i hcond
      intro _ heq
      dsimp only at heq
      exact hcond (by rw [heq]; rfl)
  · intro h; simp at h
  · intro h; simp at h
  · split
    · rename_i h
      unfold AgentState.switch_to_fallback at h
      rw [hf] at h
      simp at h
    · intro h; simp at h

/-- A successful fixer generation never carries empty fixed code: the
`success = true` patch is built only after the non-empty check on the
extracted code. -/
theorem generate_success_nonempty (env : InferenceEnv) (v : Vulnerability)
    (oc : String) (st : FixerState) (idx : Nat) :
    (generate_with_fallback env v oc st idx).patch.success = true →
    (generate_with_fallback env v oc st idx).patch.fixed_code ≠ "" := by
  rw [generate_with_fallback]
  split
  · dsimp only
    split
    · intro h; simp at h
    · rename_i hcond
      intro _ heq
      dsimp only at heq
      exact hcond (by rw [heq]; rfl)
  · intro h; simp at h
  · intro h; simp at h
  · split
    · rename_i ag2 h
      have h2 : ({ st.agent with using_fallback := true } : AgentState) = ag2 := by
        unfold AgentState.switch_to_fallback at h
        split_ifs at h with h1 h2
        · simp at h
        · simp at h
        · exact congrArg Prod.snd h
      have hf2 : ag2.using_fallback = true := by rw [← h2]
      intro hs heq
      dsimp only at hs heq
      exact generate_success_nonempty_aux env v oc ⟨ag2, st.last_response⟩ _ hf2 hs heq
    · intro h; simp at h

/-- C4: an entry produced by the fixing loop body is marked healed exactly
when the generated patch reports success and the guarded disk write raised
no error; a missing-file read error, a failed or empty generation, and an
apply exception all leave the entry unhealed. -/
theorem healed_iff_success_and_write (fixEnv : InferenceEnv) (root : String)
    (aLast : Option Response) (rem cem ts : String) (copyOk : Bool)
    (v : Vulnerability) (st : FixerState) (fs : FS) (idx : Nat) :
    (fs (joinPath root v.file_path) = none →
      (processFinding fixEnv root aLast rem cem ts copyOk v st fs idx).entry.healed = false) ∧
    (∀ orig, fs (joinPath root v.file_path) = some orig →
      ((processFinding fixEnv root aLast rem cem ts copyOk v st fs idx).entry.healed = true ↔
        ((generate_with_fallback fixEnv v orig st idx).patch.success = true ∧
         (write_patch fs (joinPath root v.file_path)
           (generate_with_fallback fixEnv v orig st idx).patch.fixed_code ts copyOk).2
             = none))) := by
  constructor
  · intro h
    unfold processFinding
    rw [h]
  · intro orig h
    unfold processFinding
    rw [h]
    dsimp only
    by_cases hc : (generate_with_fallback fixEnv v orig st idx).patch.success = true ∧
        (generate_with_fallback fixEnv v orig st idx).patch.fixed_code ≠ ""
    · rw [if_pos hc]
      split
      · rename_i fs2 hw
        simp only
        constructor
        · intro _
          exact ⟨hc.1, by rw [hw]⟩
        · intro _; trivial
      · rename_i fs2 e hw
        simp only
        constructor
        · intro hfalse; simp at hfalse
        · intro ⟨_, h2⟩
          rw [hw] at h2
          simp at h2
    · rw [if_neg hc]
      simp only
      constructor
      · intro hfalse; simp at hfalse
      · intro ⟨hs, _⟩
        exact absurd ⟨hs, generate_success_nonempty fixEnv v orig st idx hs⟩ hc

/-- Witness for C4 at a concrete run: a successful generation and a
successful write yield a healed entry. -/
theorem healed_iff_success_and_write_witness :
    (processFinding (fun _ _ => .ok ⟨[], "```python\nsafe()\n```", .ok .null⟩) "root" none
        "r" "c" "T" true ⟨"high", "i", "a.py", 1, "s"⟩ ⟨⟨"m", "f", false⟩, none⟩
        (fun q => if q = "root/a.py" then some "bad()" else none) 0).entry.healed = true := by
  have H := (healed_iff_success_and_write (fun _ _ => .ok ⟨[], "```python\nsafe()\n```", .ok .null⟩)
    "root" none "r" "c" "T" true ⟨"high", "i", "a.py", 1, "s"⟩ ⟨⟨"m", "f", false⟩, none⟩
    (fun q => if q = "root/a.py" then some "bad()" else none) 0).2 "bad()" (by decide)
  apply H.mpr
  constructor
  · simp [generate_with_fallback, retryLoop, attemptNumbers, MAX_RETRIES]
    decide
  · have hfix : (generate_with_fallback (fun _ _ => .ok ⟨[], "```python\nsafe()\n```", .ok .null⟩)
        ⟨"high", "i", "a.py", 1, "s"⟩ "bad()" ⟨⟨"m", "f", false⟩, none⟩ 0).patch.fixed_code
        = "safe()" := by
      simp [generate_with_fallback, retryLoop, attemptNumbers, MAX_RETRIES]
      decide
    rw [hfix]
    decide

/-- C6 counterexample: a unit whose response parses to a JSON *object*
(not a list) does not yield zero findings — `_parse_response` wraps the
non-list value into a one-element list (`raw = [raw]`), defaults its
`file_path` and validates it, so the scan of this single unit records one
finding. -/
theorem nonlist_response_one_finding :
    (analyze_repository
        (fun _ _ => .ok ⟨[], "", .ok (.obj [("severity", .str "high"),
          ("issue", .str "sqli"), ("line_number", .num 3),
          ("fix_suggestion", .str "use params")])⟩)
        [("a.py", "code")] ⟨⟨"m", "f", false⟩, none, []⟩ "root").1.vulnerabilities
      = [⟨"high", "sqli", "a.py", 3, "use params"⟩] ∧
    ([⟨"high", "sqli", "a.py", 3, "use params"⟩] : List Vulnerability) ≠ [] := by
  refine ⟨?_, by simp⟩
  simp [analyze_repository, scanFiles, auditor_call_with_fallback, retryLoop,
    attemptNumbers, MAX_RETRIES, parse_response, setDefaultFilePath, jsonLookup,
    validateVuln, List.filterMap, List.find?]

/-- C6 (amended): an unparseable (malformed JSON) response yields exactly
zero findings for its unit; a parseable non-list value is coerced to a
one-element list and validated (a valid single object thus yields one
finding, an invalid one zero); in all cases each unit contributes its own
independent slot to the scan and every unit is counted among the files
scanned. -/
theorem malformed_or_nonlist_response (env : InferenceEnv)
    (files : List (String × String)) (st : AuditorState) (root : String)
    (e p : String) (j : Json) (idx : Nat) :
    parse_response (.error e) p = [] ∧
    ((∀ xs, j ≠ .arr xs) →
      parse_response (.ok j) p = (validateVuln (setDefaultFilePath j p)).toList) ∧
    (scanFiles env files st idx).1.length = files.length ∧
    (analyze_repository env files st root).1.scanned_files = files.length := by
  refine ⟨rfl, ?_, ?_, analyze_repository_scanned env files st root⟩
  · intro hj
    cases j with
    | arr xs => exact absurd rfl (hj xs)
    | null => cases hv : validateVuln (setDefaultFilePath .null p) <;>
        simp [parse_response, List.filterMap, hv]
    | bool b => cases hv : validateVuln (setDefaultFilePath (.bool b) p) <;>
        simp [parse_response, List.filterMap, hv]
    | num n => cases hv : validateVuln (setDefaultFilePath (.num n) p) <;>
        simp [parse_response, List.filterMap, hv]
    | str s => cases hv : validateVuln (setDefaultFilePath (.str s) p) <;>
        simp [parse_response, List.filterMap, hv]
    | obj fields => cases hv : validateVuln (setDefaultFilePath (.obj fields) p) <;>
        simp [parse_response, List.filterMap, hv]
  · induction files generalizing st idx with
    | nil => rfl
    | cons f rest ih =>
        cases f with
        | mk rel content =>
            simp only [scanFiles, List.length_cons]
            rw [ih]

/-- Witness for C6 (amended) at a malformed response, a non-list value and
a concrete one-unit scan. -/
theorem malformed_or_nonlist_response_witness :
    parse_response (.error "Expecting value: line 1 column 1 (char 0)") "a.py" = [] ∧
    parse_response (.ok (.num 5)) "a.py"
      = (validateVuln (setDefaultFilePath (.num 5) "a.py")).toList ∧
    (scanFiles (fun _ _ => .ok ⟨[], "", .error "bad"⟩) [("a.py", "code")]
        ⟨⟨"m", "f", false⟩, none, []⟩ 0).1.length = 1 := by
  have H := malformed_or_nonlist_response (fun _ _ => .ok ⟨[], "", .error "bad"⟩)
    [("a.py", "code")] ⟨⟨"m", "f", false⟩, none, []⟩ "root"
    "Expecting value: line 1 column 1 (char 0)" "a.py" (.num 5) 0
  exact ⟨H.1, H.2.1 (fun xs h => nomatch h), H.2.2.1⟩

theorem attemptNumbers_eq : attemptNumbers = [1, 2, 3] := rfl

/-- Three consecutive quota errors exhaust the attempt loop with back-off
sleeps of 2, 4, 8 time units, retaining the last error. -/
theorem retryLoop_allQuota (env : InferenceEnv) (model : String) (q : Nat → String)
    (idx : Nat) (hq : ∀ i, env model i = .quota (q i)) :
    retryLoop env model attemptNumbers idx none =
      ⟨.exhausted, [2, 4, 8], 3, some (q (idx + 2)), idx + 3⟩ := by
  simp [retryLoop, attemptNumbers_eq, hq, BASE_DELAY]

/-- An immediate response ends the attempt loop after one call with no
sleeps. -/
theorem retryLoop_ok (env : InferenceEnv) (model : String) (r : Response)
    (idx : Nat) (h : env model idx = .ok r) :
    retryLoop env model attemptNumbers idx none = ⟨.got r, [], 1, none, idx + 1⟩ := by
  simp [retryLoop, attemptNumbers_eq, h]

/-- Auditor engine, agent already on fallback, all calls rate-limited:
three attempts with sleeps 2, 4, 8, one (refused) switch request, no
findings, last error retained. -/
theorem auditor_call_exhaust_on_fallback (env : InferenceEnv) (rel : String)
    (st : AuditorState) (idx : Nat) (q : Nat → String)
    (hf : st.agent.using_fallback = true)
    (hq : ∀ i, env st.agent.fallback_model i = .quota (q i)) :
    auditor_call_with_fallback env rel st idx =
      ⟨[], st, [2, 4, 8], List.replicate 3 st.agent.fallback_model, 1,
       some (q (idx + 2)), idx + 3⟩ := by
  rw [auditor_call_with_fallback]
  have hact : st.agent.active_model = st.agent.fallback_model := by
    simp [AgentState.active_model, hf]
  simp only [hact]
  rw [retryLoop_allQuota env st.agent.fallback_model q idx hq]
  dsimp only
  split
  · rename_i ag2 h
    unfold AgentState.switch_to_fallback at h
    rw [hf] at h
    simp at h
  · rfl

/-- Auditor engine, primary agent, all calls on both models rate-limited:
3 + 3 attempts with sleeps 2, 4, 8 on each model, a granted switch then a
refused one, no findings, final state on fallback, last error retained
from the final call. -/
theorem auditor_call_exhaust_both (env : InferenceEnv) (rel : String)
    (st : AuditorState) (idx : Nat) (q : String → Nat → String)
    (hf : st.agent.using_fallback = false)
    (hm : st.agent.model ≠ st.agent.fallback_model)
    (hq : ∀ mo i, env mo i = .quota (q mo i)) :
    auditor_call_with_fallback env rel st idx =
      ⟨[], { st with agent := { st.agent with using_fallback := true } },
       [2, 4, 8, 2, 4, 8],
       List.replicate 3 st.agent.model ++ List.replicate 3 st.agent.fallback_model, 2,
       some (q st.agent.fallback_model (idx + 5)), idx + 6⟩ := by
  rw [auditor_call_with_fallback]
  have hact : st.agent.active_model = st.agent.model := by
    simp [AgentState.active_model, hf]
  simp only [hact]
  rw [retryLoop_allQuota env st.agent.model (q st.agent.model) idx (fun i => hq _ i)]
  dsimp only
  have hsw : st.agent.switch_to_fallback =
      (true, { st.agent with using_fallback := true }) := by
    simp [AgentState.switch_to_fallback, hf, hm]
  split
  · rename_i ag2 h
    rw [hsw] at h
    injection h with _ h2
    subst h2
    rw [auditor_call_exhaust_on_fallback env rel
      { st with agent := { st.agent with using_fallback := true } } (idx + 3)
      (q st.agent.fallback_model) rfl (fun i => hq _ i)]
    simp
  · rename_i h
    rw [hsw] at h
    simp at h

/-- Auditor engine, primary agent, three rate-limited calls on the primary
model followed by a response from the fallback model: sleeps 2, 4, 8, one
granted switch, then the response is stored, thinking accumulated, and
parsed. -/
theorem auditor_call_quota_then_ok (env : InferenceEnv) (rel : String)
    (st : AuditorState) (idx : Nat) (q : Nat → String) (r : Response)
    (hf : st.agent.using_fallback = false)
    (hm : st.agent.model ≠ st.agent.fallback_model)
    (hq : ∀ i, env st.agent.model i = .quota (q i))
    (hok : env st.agent.fallback_model (idx + 3) = .ok r) :
    auditor_call_with_fallback env rel st idx =
      ⟨parse_response r.jsonText rel,
       ⟨{ st.agent with using_fallback := true }, some r,
        accumulate_thinking st.accumulated_thinking r rel⟩,
       [2, 4, 8], List.replicate 3 st.agent.model ++ [st.agent.fallback_model], 1,
       none, idx + 4⟩ := by
  rw [auditor_call_with_fallback]
  have hact : st.agent.active_model = st.agent.model := by
    simp [AgentState.active_model, hf]
  simp only [hact]
  rw [retryLoop_allQuota env st.agent.model q idx hq]
  dsimp only
  have hsw : st.agent.switch_to_fallback =
      (true, { st.agent with using_fallback := true }) := by
    simp [AgentState.switch_to_fallback, hf, hm]
  split
  · rename_i ag2 h
    rw [hsw] at h
    injection h with _ h2
    subst h2
    rw [auditor_call_with_fallback]
    have hact2 : ({ st.agent with using_fallback := true } : AgentState).active_model
        = st.agent.fallback_model := by
      simp [AgentState.active_model]
    simp only [hact2]
    rw [retryLoop_ok env st.agent.fallback_model r (idx + 3) hok]
    dsimp only
    simp
  · rename_i h
    rw [hsw] at h
    simp at h

/-- Fixer engine, agent already on fallback, all calls rate-limited:
three attempts with sleeps 2, 4, 8, one (refused) switch request, an
explicit rate-limited failure patch, last error retained. -/
theorem fixer_call_exhaust_on_fallback (env : InferenceEnv) (v : Vulnerability)
    (oc : String) (st : FixerState) (idx : Nat) (q : Nat → String)
    (hf : st.agent.using_fallback = true)
    (hq : ∀ i, env st.agent.fallback_model i = .quota (q i)) :
    generate_with_fallback env v oc st idx =
      ⟨⟨v.file_path, oc, "", false, "Rate-limited after 3 retries on both models."⟩,
       st, [2, 4, 8], List.replicate 3 st.agent.fallback_model, 1,
       some (q (idx + 2)), idx + 3⟩ := by
  rw [generate_with_fallback]
  have hact : st.agent.active_model = st.agent.fallback_model := by
    simp [AgentState.active_model, hf]
  simp only [hact]
  rw [retryLoop_allQuota env st.agent.fallback_model q idx hq]
  dsimp only
  split
  · rename_i ag2 h
    unfold AgentState.switch_to_fallback at h
    rw [hf] at h
    simp at h
  · rfl

/-- Fixer engine, primary agent, all calls on both models rate-limited:
3 + 3 attempts with sleeps 2, 4, 8 on each model, a granted switch then a
refused one, the rate-limited failure patch, final state on fallback,
last error retained from the final call. -/
theorem fixer_call_exhaust_both (env : InferenceEnv) (v : Vulnerability)
    (oc : String) (st : FixerState) (idx : Nat) (q : String → Nat → String)
    (hf : st.agent.using_fallback = false)
    (hm : st.agent.model ≠ st.agent.fallback_model)
    (hq : ∀ mo i, env mo i = .quota (q mo i)) :
    generate_with_fallback env v oc st idx =
      ⟨⟨v.file_path, oc, "", false, "Rate-limited after 3 retries on both models."⟩,
       { st with agent := { st.agent with using_fallback := true } },
       [2, 4, 8, 2, 4, 8],
       List.replicate 3 st.agent.model ++ List.replicate 3 st.agent.fallback_model, 2,
       some (q st.agent.fallback_model (idx + 5)), idx + 6⟩ := by
  rw [generate_with_fallback]
  have hact : st.agent.active_model = st.agent.model := by
    simp [AgentState.active_model, hf]
  simp only [hact]
  rw [retryLoop_allQuota env st.agent.model (q st.agent.model) idx (fun i => hq _ i)]
  dsimp only
  have hsw : st.agent.switch_to_fallback =
      (true, { st.agent with using_fallback := true }) := by
    simp [AgentState.switch_to_fallback, hf, hm]
  split
  · rename_i ag2 h
    rw [hsw] at h
    injection h with _ h2
    subst h2
    rw [fixer_call_exhaust_on_fallback env v oc
      { st with agent := { st.agent with using_fallback := true } } (idx + 3)
      (q st.agent.fallback_model) rfl (fun i => hq _ i)]
    simp
  · rename_i h
    rw [hsw] at h
    simp at h

/-- Fixer engine, primary agent, three rate-limited calls on the primary
model followed by a response from the fallback model whose extracted code
is non-empty: sleeps 2, 4, 8, one granted switch, then a success patch
carrying the extracted code and the fallback model name, with the
response stored. -/
theorem fixer_call_quota_then_ok (env : InferenceEnv) (v : Vulnerability)
    (oc : String) (st : FixerState) (idx : Nat) (q : Nat → String) (r : Response)
    (hf : st.agent.using_fallback = false)
    (hm : st.agent.model ≠ st.agent.fallback_model)
    (hq : ∀ i, env st.agent.model i = .quota (q i))
    (hok : env st.agent.fallback_model (idx + 3) = .ok r)
    (hne : ¬ stripStr (extract_code r.text) = "") :
    generate_with_fallback env v oc st idx =
      ⟨⟨v.file_path, oc, extract_code r.text, true,
        "Patch generated successfully (model=" ++ st.agent.fallback_model ++ ")."⟩,
       ⟨{ st.agent with using_fallback := true }, some r⟩,
       [2, 4, 8], List.replicate 3 st.agent.model ++ [st.agent.fallback_model], 1,
       none, idx + 4⟩ := by
  rw [generate_with_fallback]
  have hact : st.agent.active_model = st.agent.model := by
    simp [AgentState.active_model, hf]
  simp only [hact]
  rw [retryLoop_allQuota env st.agent.model q idx hq]
  dsimp only
  have hsw : st.agent.switch_to_fallback =
      (true, { st.agent with using_fallback := true }) := by
    simp [AgentState.switch_to_fallback, hf, hm]
  split
  · rename_i ag2 h
    rw [hsw] at h
    injection h with _ h2
    subst h2
    rw [generate_with_fallback]
    have hact2 : ({ st.agent with using_fallback := true } : AgentState).active_model
        = st.agent.fallback_model := by
      simp [AgentState.active_model]
    simp only [hact2]
    rw [retryLoop_ok env st.agent.fallback_model r (idx + 3) hok]
    dsimp only
    rw [if_neg hne]
    simp
  · rename_i h
    rw [hsw] at h
    simp at h

/-- C1: for both retry engines (auditor per-file audit and fixer patch
generation), with every call rate-limited on a model the engine makes
exactly three attempts against it sleeping 2, 4, 8 time units; on
exhaustion of the primary model a fallback switch is requested and, when
granted, the same request is rerun fully (three more attempts) against
the fallback model; when no switch is possible (already on fallback) the
engine reports final failure — empty findings for the auditor and an
explicit rate-limited failure patch for the fixer — retaining the last
quota error; when a fallback call answers, the response is used (parsed
findings, resp. a success patch generated by the fallback model). -/
theorem retry_backoff_and_fallback (env : InferenceEnv) (rel : String)
    (st : AuditorState) (fst : FixerState) (v : Vulnerability) (oc : String)
    (idx : Nat) (q : String → Nat → String) (q1 : Nat → String) (r : Response) :
    (st.agent.using_fallback = true → (∀ i, env st.agent.fallback_model i = .quota (q1 i)) →
      auditor_call_with_fallback env rel st idx =
        ⟨[], st, [2, 4, 8], List.replicate 3 st.agent.fallback_model, 1,
         some (q1 (idx + 2)), idx + 3⟩) ∧
    (st.agent.using_fallback = false → st.agent.model ≠ st.agent.fallback_model →
      (∀ mo i, env mo i = .quota (q mo i)) →
      auditor_call_with_fallback env rel st idx =
        ⟨[], { st with agent := { st.agent with using_fallback := true } },
         [2, 4, 8, 2, 4, 8],
         List.replicate 3 st.agent.model ++ List.replicate 3 st.agent.fallback_model, 2,
         some (q st.agent.fallback_model (idx + 5)), idx + 6⟩) ∧
    (st.agent.using_fallback = false → st.agent.model ≠ st.agent.fallback_model →
      (∀ i, env st.agent.model i = .quota (q1 i)) →
      env st.agent.fallback_model (idx + 3) = .ok r →
      auditor_call_with_fallback env rel st idx =
        ⟨parse_response r.jsonText rel,
         ⟨{ st.agent with using_fallback := true }, some r,
          accumulate_thinking st.accumulated_thinking r rel⟩,
         [2, 4, 8], List.replicate 3 st.agent.model ++ [st.agent.fallback_model], 1,
         none, idx + 4⟩) ∧
    (fst.agent.using_fallback = true → (∀ i, env fst.agent.fallback_model i = .quota (q1 i)) →
      generate_with_fallback env v oc fst idx =
        ⟨⟨v.file_path, oc, "", false, "Rate-limited after 3 retries on both models."⟩,
         fst, [2, 4, 8], List.replicate 3 fst.agent.fallback_model, 1,
         some (q1 (idx + 2)), idx + 3⟩) ∧
    (fst.agent.using_fallback = false → fst.agent.model ≠ fst.agent.fallback_model →
      (∀ mo i, env mo i = .quota (q mo i)) →
      generate_with_fallback env v oc fst idx =
        ⟨⟨v.file_path, oc, "", false, "Rate-limited after 3 retries on both models."⟩,
         { fst with agent := { fst.agent with using_fallback := true } },
         [2, 4, 8, 2, 4, 8],
         List.replicate 3 fst.agent.model ++ List.replicate 3 fst.agent.fallback_model, 2,
         some (q fst.agent.fallback_model (idx + 5)), idx + 6⟩) ∧
    (fst.agent.using_fallback = false → fst.agent.model ≠ fst.agent.fallback_model →
      (∀ i, env fst.agent.model i = .quota (q1 i)) →
      env fst.agent.fallback_model (idx + 3) = .ok r →
      ¬ stripStr (extract_code r.text) = "" →
      generate_with_fallback env v oc fst idx =
        ⟨⟨v.file_path, oc, extract_code r.text, true,
          "Patch generated successfully (model=" ++ fst.agent.fallback_model ++ ")."⟩,
         ⟨{ fst.agent with using_fallback := true }, some r⟩,
         [2, 4, 8], List.replicate 3 fst.agent.model ++ [fst.agent.fallback_model], 1,
         none, idx + 4⟩) :=
  ⟨fun hf hq => auditor_call_exhaust_on_fallback env rel st idx q1 hf hq,
   fun hf hm hq => auditor_call_exhaust_both env rel st idx q hf hm hq,
   fun hf hm hq hok => auditor_call_quota_then_ok env rel st idx q1 r hf hm hq hok,
   fun hf hq => fixer_call_exhaust_on_fallback env v oc fst idx q1 hf hq,
   fun hf hm hq => fixer_call_exhaust_both env v oc fst idx q hf hm hq,
   fun hf hm hq hok hne => fixer_call_quota_then_ok env v oc fst idx q1 r hf hm hq hok hne⟩

/-- Witness for C1: a concrete primary-state run where every call is
rate-limited exhausts both models with sleeps 2, 4, 8, 2, 4, 8. -/
theorem retry_backoff_and_fallback_witness :
    auditor_call_with_fallback (fun mo _ => .quota mo) "a.py"
        ⟨⟨"m", "f", false⟩, none, []⟩ 0 =
      ⟨[], ⟨⟨"m", "f", true⟩, none, []⟩, [2, 4, 8, 2, 4, 8],
       List.replicate 3 "m" ++ List.replicate 3 "f", 2, some "f", 6⟩ ∧
    generate_with_fallback (fun mo _ => .quota mo) ⟨"high", "i", "a.py", 1, "s"⟩
        "orig" ⟨⟨"m", "f", false⟩, none⟩ 0 =
      ⟨⟨"a.py", "orig", "", false, "Rate-limited after 3 retries on both models."⟩,
       ⟨⟨"m", "f", true⟩, none⟩, [2, 4, 8, 2, 4, 8],
       List.replicate 3 "m" ++ List.replicate 3 "f", 2, some "f", 6⟩ := by
  have H := retry_backoff_and_fallback (fun mo _ => .quota mo) "a.py"
    ⟨⟨"m", "f", false⟩, none, []⟩ ⟨⟨"m", "f", false⟩, none⟩
    ⟨"high", "i", "a.py", 1, "s"⟩ "orig" 0 (fun mo _ => mo) (fun _ => "m")
    ⟨[], "", .ok .null⟩
  exact ⟨H.2.1 rfl (by decide) (fun _ _ => rfl), H.2.2.2.2.1 rfl (by decide) (fun _ _ => rfl)⟩

theorem space_not_word (c : Char) (h : isSpaceChar c = true) : isWordChar c = false := by
  simp only [isSpaceChar, Bool.or_eq_true, decide_eq_true_eq] at h
  rcases h with ((((h | h) | h) | h) | h) | h <;> subst h <;> decide

theorem dropWhile_append_all {α} (p : α → Bool) (l1 l2 : List α)
    (h : ∀ c ∈ l1, p c = true) :
    (l1 ++ l2).dropWhile p = l2.dropWhile p := by
  induction l1 with
  | nil => rfl
  | cons a t ih =>
      simp only [List.cons_append, List.dropWhile_cons, h a (by simp), if_true]
      exact ih (fun c hc => h c (by simp [hc]))

theorem takeWhile_append_all {α} (p : α → Bool) (l1 l2 : List α)
    (h : ∀ c ∈ l1, p c = true) :
    (l1 ++ l2).takeWhile p = l1 ++ l2.takeWhile p := by
  induction l1 with
  | nil => rfl
  | cons a t ih =>
      simp only [List.cons_append, List.takeWhile_cons, h a (by simp), if_true]
      rw [ih (fun c hc => h c (by simp [hc]))]

theorem takeWhile_append_stop {α} (p : α → Bool) (l1 l2 : List α) (c : α)
    (h : p c = false) :
    (l1 ++ c :: l2).takeWhile p = l1.takeWhile p := by
  induction l1 with
  | nil => simp [List.takeWhile_cons, h]
  | cons a t ih =>
      simp only [List.cons_append, List.takeWhile_cons]
      split_ifs with ha
      · rw [ih]
      · rfl

theorem splitTicks_cons_ne (c : Char) (h : c ≠ '`') (l : List Char) :
    splitTicks (c :: l) = (splitTicks l).map (fun pre => c :: pre) := by
  simp only [splitTicks]
  rw [if_neg h]

theorem splitTicks_open (r : List Char) :
    splitTicks ('`' :: '`' :: '`' :: r) = some [] := rfl

theorem splitTicks_append (body r : List Char) (h : ∀ c ∈ body, c ≠ '`') :
    splitTicks (body ++ '`' :: '`' :: '`' :: r) = some body := by
  induction body with
  | nil => rw [List.nil_append, splitTicks_open]
  | cons c t ih =>
      rw [List.cons_append, splitTicks_cons_ne c (h c (by simp)),
        ih (fun c hc => h c (by simp [hc]))]
      rfl

theorem matchFenceAt_cons_ne (c : Char) (h : c ≠ '`') (l : List Char) :
    matchFenceAt (c :: l) = none := by
  unfold matchFenceAt
  split
  · rename_i heq
    injection heq with h1 _
    exact absurd h1 h
  · rfl

theorem matchFenceAt_open (r : List Char) :
    matchFenceAt ('`' :: '`' :: '`' :: r) = fenceBody r := rfl

theorem searchFence_cons (c : Char) (l : List Char) :
    searchFence (c :: l) =
      match matchFenceAt (c :: l) with
      | some g => some g
      | none => searchFence l := by
  simp only [searchFence]

theorem searchFence_append (pre X : List Char) (h : ∀ c ∈ pre, c ≠ '`') :
    searchFence (pre ++ X) = searchFence X := by
  induction pre with
  | nil => rfl
  | cons c t ih =>
      rw [List.cons_append, searchFence_cons, matchFenceAt_cons_ne c (h c (by simp)),
        ih (fun c hc => h c (by simp [hc]))]

theorem fenceBody_eval (lang ws0 body rest : List Char)
    (hlang : ∀ c ∈ lang, isWordChar c = true)
    (hws : ∀ c ∈ ws0, isSpaceChar c = true)
    (hbody1 : ∀ c ∈ body.takeWhile isSpaceChar, c ≠ '\n')
    (hbody2 : ∀ c ∈ body, c ≠ '`') :
    fenceBody (lang ++ (ws0 ++ '\n' :: (body ++ '`' :: '`' :: '`' :: rest)))
      = some body := by
  have hAfterW : (lang ++ (ws0 ++ '\n' :: (body ++ '`' :: '`' :: '`' :: rest))).dropWhile
      isWordChar = ws0 ++ '\n' :: (body ++ '`' :: '`' :: '`' :: rest) := by
    rw [dropWhile_append_all isWordChar lang _ hlang]
    cases ws0 with
    | nil =>
        rw [List.nil_append, List.dropWhile_cons,
          if_neg (by simp [show isWordChar '\n' = false from by decide])]
    | cons w t =>
        rw [List.cons_append, List.dropWhile_cons,
          if_neg (by simp [space_not_word w (hws w (by simp))])]
  have hlws : (body ++ '`' :: '`' :: '`' :: rest).takeWhile isSpaceChar
      = body.takeWhile isSpaceChar :=
    takeWhile_append_stop isSpaceChar body _ '`' (by decide)
  have hRun : (ws0 ++ '\n' :: (body ++ '`' :: '`' :: '`' :: rest)).takeWhile isSpaceChar
      = ws0 ++ '\n' :: body.takeWhile isSpaceChar := by
    rw [takeWhile_append_all isSpaceChar ws0 _ hws, List.takeWhile_cons,
      if_pos (by decide), hlws]
  have hRev : (ws0 ++ '\n' :: body.takeWhile isSpaceChar).reverse
      = (body.takeWhile isSpaceChar).reverse ++ '\n' :: ws0.reverse := by
    simp
  have hTail : ((body.takeWhile isSpaceChar).reverse ++ '\n' :: ws0.reverse).takeWhile
      (fun c => decide (c ≠ '\n')) = (body.takeWhile isSpaceChar).reverse := by
    rw [takeWhile_append_all _ _ _
      (fun c hc => by simpa using hbody1 c (List.mem_reverse.mp hc))]
    rw [List.takeWhile_cons, if_neg (by simp)]
    simp
  have hDropRev : ((body.takeWhile isSpaceChar).reverse ++ '\n' :: ws0.reverse).dropWhile
      (fun c => decide (c ≠ '\n')) = '\n' :: ws0.reverse := by
    rw [dropWhile_append_all _ _ _
      (fun c hc => by simpa using hbody1 c (List.mem_reverse.mp hc))]
    rw [List.dropWhile_cons, if_neg (by simp)]
  have harith : (ws0 ++ '\n' :: body.takeWhile isSpaceChar).length
      - (body.takeWhile isSpaceChar).reverse.length = ws0.length + 1 := by
    simp
    omega
  have hdrop : (ws0 ++ '\n' :: (body ++ '`' :: '`' :: '`' :: rest)).drop (ws0.length + 1)
      = body ++ '`' :: '`' :: '`' :: rest := by
    have hsplit : ws0 ++ '\n' :: (body ++ '`' :: '`' :: '`' :: rest)
        = (ws0 ++ ['\n']) ++ (body ++ '`' :: '`' :: '`' :: rest) := by simp
    rw [hsplit, show ws0.length + 1 = (ws0 ++ ['\n']).length by simp]
    exact List.drop_left _ _
  unfold fenceBody
  dsimp only
  rw [hAfterW, hRun, hRev, hTail, hDropRev, harith, hdrop,
    splitTicks_append body rest hbody2]
  rw [if_neg (by simp)]

theorem searchFence_fenced (pre lang ws0 body rest : List Char)
    (hpre : ∀ c ∈ pre, c ≠ '`')
    (hlang : ∀ c ∈ lang, isWordChar c = true)
    (hws : ∀ c ∈ ws0, isSpaceChar c = true)
    (hbody1 : ∀ c ∈ body.takeWhile isSpaceChar, c ≠ '\n')
    (hbody2 : ∀ c ∈ body, c ≠ '`') :
    searchFence (pre ++ '`' :: '`' :: '`' ::
        (lang ++ (ws0 ++ '\n' :: (body ++ '`' :: '`' :: '`' :: rest))))
      = some body := by
  rw [searchFence_append pre _ hpre, searchFence_cons, matchFenceAt_open,
    fenceBody_eval lang ws0 body rest hlang hws hbody1 hbody2]

/-- The extraction of a canonically fenced answer: for any text of the
shape `pre ++ fence ++ lang ++ ws ++ newline ++ body ++ fence ++ rest` —
backtick-free prefix, word-character language tag, whitespace run before
the newline, backtick-free body whose leading whitespace holds no
newline — `_extract_code` returns exactly the body stripped of
surrounding whitespace, whatever follows the closing fence. -/
theorem extract_code_fenced (pre lang ws0 body rest : List Char)
    (hpre : ∀ c ∈ pre, c ≠ '`')
    (hlang : ∀ c ∈ lang, isWordChar c = true)
    (hws : ∀ c ∈ ws0, isSpaceChar c = true)
    (hbody1 : ∀ c ∈ body.takeWhile isSpaceChar, c ≠ '\n')
    (hbody2 : ∀ c ∈ body, c ≠ '`') :
    extract_code (String.mk (pre ++ '`' :: '`' :: '`' ::
        (lang ++ (ws0 ++ '\n' :: (body ++ '`' :: '`' :: '`' :: rest)))))
      = String.mk (stripChars body) := by
  unfold extract_code
  rw [show (String.mk (pre ++ '`' :: '`' :: '`' ::
      (lang ++ (ws0 ++ '\n' :: (body ++ '`' :: '`' :: '`' :: rest))))).toList
    = pre ++ '`' :: '`' :: '`' ::
      (lang ++ (ws0 ++ '\n' :: (body ++ '`' :: '`' :: '`' :: rest))) from rfl]
  rw [searchFence_fenced pre lang ws0 body rest hpre hlang hws hbody1 hbody2]

/-- C10: on an answer containing two (or more) triple-backtick fenced
blocks, `_extract_code` returns only the first block's body with
surrounding whitespace stripped; the second block and all text outside
the first fence are discarded. -/
theorem first_fence_wins (pre lang ws0 body mid lang2 ws2 body2 post : List Char)
    (hpre : ∀ c ∈ pre, c ≠ '`')
    (hlang : ∀ c ∈ lang, isWordChar c = true)
    (hws : ∀ c ∈ ws0, isSpaceChar c = true)
    (hbody1 : ∀ c ∈ body.takeWhile isSpaceChar, c ≠ '\n')
    (hbody2 : ∀ c ∈ body, c ≠ '`') :
    extract_code (String.mk (pre ++ '`' :: '`' :: '`' ::
        (lang ++ (ws0 ++ '\n' :: (body ++ '`' :: '`' :: '`' ::
          (mid ++ '`' :: '`' :: '`' ::
            (lang2 ++ (ws2 ++ '\n' :: (body2 ++ '`' :: '`' :: '`' :: post)))))))))
      = String.mk (stripChars body) :=
  extract_code_fenced pre lang ws0 body
    (mid ++ '`' :: '`' :: '`' ::
      (lang2 ++ (ws2 ++ '\n' :: (body2 ++ '`' :: '`' :: '`' :: post))))
    hpre hlang hws hbody1 hbody2

/-- Witness for C10: an answer with two fenced blocks keeps only the
first block's body. -/
theorem first_fence_wins_witness :
    extract_code "Answer:\n```python\nx = 1\n```\nand\n```\ny\n```" = "x = 1" := by
  have H := first_fence_wins "Answer:\n".toList "python".toList [] "x = 1\n".toList
    "\nand\n".toList [] [] "y\n".toList [] (by decide) (by decide) (by decide)
    (by decide) (by decide)
  rw [show ("Answer:\n```python\nx = 1\n```\nand\n```\ny\n```" : String)
    = String.mk ("Answer:\n".toList ++ '`' :: '`' :: '`' ::
        ("python".toList ++ ([] ++ '\n' :: ("x = 1\n".toList ++ '`' :: '`' :: '`' ::
          ("\nand\n".toList ++ '`' :: '`' :: '`' ::
            ([] ++ ([] ++ '\n' :: ("y\n".toList ++ '`' :: '`' :: '`' :: ([] : List Char)))))))))
    from by decide]
  rw [H]
  decide

/-- C7 counterexample: on an answer with no code fence `_extract_code`
does not return the raw text verbatim — it strips the surrounding
whitespace. -/
theorem raw_not_verbatim :
    searchFence ("  x  " : String).toList = none ∧
    extract_code "  x  " = "x" ∧
    ("x" : String) ≠ "  x  " := ⟨by decide, by decide, by decide⟩

/-- C7 (amended): `_extract_code` returns the stripped body of the first
fenced block when the fence pattern matches, and the raw text stripped of
surrounding whitespace (not verbatim) otherwise; and a generation whose
extracted code is empty or whitespace-only is reported as a failure with
the explicit empty-response message — never as a success. -/
theorem extract_and_empty_response (pre lang ws0 body rest : List Char) (raw : String)
    (env : InferenceEnv) (v : Vulnerability) (oc : String) (st : FixerState)
    (idx : Nat) (r : Response) :
    ((∀ c ∈ pre, c ≠ '`') → (∀ c ∈ lang, isWordChar c = true) →
      (∀ c ∈ ws0, isSpaceChar c = true) →
      (∀ c ∈ body.takeWhile isSpaceChar, c ≠ '\n') → (∀ c ∈ body, c ≠ '`') →
      extract_code (String.mk (pre ++ '`' :: '`' :: '`' ::
          (lang ++ (ws0 ++ '\n' :: (body ++ '`' :: '`' :: '`' :: rest)))))
        = String.mk (stripChars body)) ∧
    (searchFence raw.toList = none → extract_code raw = stripStr raw) ∧
    (env st.agent.active_model idx = .ok r → stripStr (extract_code r.text) = "" →
      generate_with_fallback env v oc st idx =
        ⟨⟨v.file_path, oc, "", false, "Gemini returned an empty response."⟩,
         { st with last_response := some r }, [], [st.agent.active_model], 0,
         none, idx + 1⟩) := by
  refine ⟨fun h1 h2 h3 h4 h5 => extract_code_fenced pre lang ws0 body rest h1 h2 h3 h4 h5,
    fun h => ?_, fun hok hempty => ?_⟩
  · unfold extract_code
    rw [h]
  · rw [generate_with_fallback]
    rw [retryLoop_ok env st.agent.active_model r idx hok]
    dsimp only
    rw [if_pos hempty]
    simp

/-- Witness for C7 (amended): a fenced answer is stripped to its body, a
bare answer is stripped of its whitespace, and a whitespace-only answer
produces the explicit empty-response failure. -/
theorem extract_and_empty_response_witness :
    extract_code "```js\nfoo()\n```tail" = "foo()" ∧
    extract_code "  hi  " = "hi" ∧
    (generate_with_fallback (fun _ _ => .ok ⟨[], "   ", .ok .null⟩)
        ⟨"high", "i", "a.py", 1, "s"⟩ "orig" ⟨⟨"m", "f", false⟩, none⟩ 0).patch
      = ⟨"a.py", "orig", "", false, "Gemini returned an empty response."⟩ := by
  have H := extract_and_empty_response "".toList "js".toList [] "foo()\n".toList
    "tail".toList "  hi  " (fun _ _ => .ok ⟨[], "   ", .ok .null⟩)
    ⟨"high", "i", "a.py", 1, "s"⟩ "orig" ⟨⟨"m", "f", false⟩, none⟩ 0
    ⟨[], "   ", .ok .null⟩
  refine ⟨?_, ?_, ?_⟩
  · have h1 := H.1 (by decide) (by decide) (by decide) (by decide) (by decide)
    rw [show ("```js\nfoo()\n```tail" : String)
      = String.mk (("" : String).toList ++ '`' :: '`' :: '`' ::
          ("js".toList ++ ([] ++ '\n' :: ("foo()\n".toList ++ '`' :: '`' :: '`' ::
            "tail".toList)))) from by decide]
    rw [h1]
    decide
  · have h2 := H.2.1 (by decide)
    rw [h2]
    decide
  · rw [H.2.2 rfl (by decide)]

theorem b64DigitVal_val (n : Nat) (h : n < 64) : b64DigitVal (b64Char n) = some n := by
  have hall : ∀ m : Fin 64, b64DigitVal (b64Char m.val) = some m.val := by decide
  exact hall ⟨n, h⟩

theorem b64Char_ne_pad (n : Nat) (h : n < 64) : b64Char n ≠ '=' := by
  have hall : ∀ m : Fin 64, b64Char m.val ≠ '=' := by decide
  exact hall ⟨n, h⟩

/-- Base64 round-trip: decoding the encoding of any byte list recovers
it — the stored signature text is a reversible encoding of the blob. -/
theorem b64_roundtrip : (bytes : List Nat) → (∀ b ∈ bytes, b < 256) →
    b64DecodeList (b64EncodeList bytes) = some bytes
  | [], _ => rfl
  | [a], h => by
      have ha : a < 256 := h a (by simp)
      simp only [b64EncodeList, b64DecodeList,
        b64DigitVal_val (a / 4) (by omega), b64DigitVal_val (a % 4 * 16) (by omega)]
      rw [if_pos trivial, if_pos ⟨trivial, trivial⟩]
      simp only [Option.some.injEq, List.cons.injEq, and_true]
      omega
  | [a, b], h => by
      have ha : a < 256 := h a (by simp)
      have hb : b < 256 := h b (by simp)
      simp only [b64EncodeList, b64DecodeList,
        b64DigitVal_val (a / 4) (by omega),
        b64DigitVal_val (a % 4 * 16 + b / 16) (by omega),
        b64DigitVal_val (b % 16 * 4) (by omega)]
      rw [if_neg (b64Char_ne_pad (b % 16 * 4) (by omega)), if_pos trivial, if_pos trivial]
      simp only [Option.some.injEq, List.cons.injEq, and_true]
      constructor <;> omega
  | a :: b :: c :: d :: rest, h => by
      have ha : a < 256 := h a (by simp)
      have hb : b < 256 := h b (by simp)
      have hc : c < 256 := h c (by simp)
      have ih := b64_roundtrip (d :: rest) (fun x hx => h x (by simp at hx ⊢; tauto))
      simp only [b64EncodeList, b64DecodeList,
        b64DigitVal_val (a / 4) (by omega),
        b64DigitVal_val (a % 4 * 16 + b / 16) (by omega),
        b64DigitVal_val (b % 16 * 4 + c / 64) (by omega),
        b64DigitVal_val (c % 64) (by omega)]
      rw [if_neg (b64Char_ne_pad (b % 16 * 4 + c / 64) (by omega)),
        if_neg (b64Char_ne_pad (c % 64) (by omega)), ih]
      simp only [Option.some.injEq, List.cons.injEq, and_true]
      refine ⟨by omega, by omega, by omega⟩
  | [a, b, c], h => by
      have ha : a < 256 := h a (by simp)
      have hb : b < 256 := h b (by simp)
      have hc : c < 256 := h c (by simp)
      simp only [b64EncodeList, b64DecodeList,
        b64DigitVal_val (a / 4) (by omega),
        b64DigitVal_val (a % 4 * 16 + b / 16) (by omega),
        b64DigitVal_val (b % 16 * 4 + c / 64) (by omega),
        b64DigitVal_val (c % 64) (by omega)]
      rw [if_neg (b64Char_ne_pad (b % 16 * 4 + c / 64) (by omega)),
        if_neg (b64Char_ne_pad (c % 64) (by omega))]
      simp only [Option.some.injEq, List.cons.injEq, and_true]
      refine ⟨by omega, by omega, by omega⟩

/-- Every manifest record appended by the fixing-loop body carries the
finding's location and description, the entry's healed flag and patch
message, the signatures of the auditor response captured at cycle level,
and the signatures of the fixer's `last_response` after this finding's
generation. -/
theorem processFinding_mentry (fixEnv : InferenceEnv) (root : String)
    (aLast : Option Response) (rem cem ts : String) (copyOk : Bool)
    (v : Vulnerability) (st : FixerState) (fs : FS) (idx : Nat) (me : ManifestEntry)
    (h : (processFinding fixEnv root aLast rem cem ts copyOk v st fs idx).mentry
      = some me) :
    me.stage = "fixer" ∧ me.file_path = v.file_path ∧
    me.line_number = v.line_number ∧ me.severity = v.severity ∧ me.issue = v.issue ∧
    me.healed = (processFinding fixEnv root aLast rem cem ts copyOk v st fs idx).entry.healed ∧
    me.patch_message
      = (processFinding fixEnv root aLast rem cem ts copyOk v st fs idx).entry.patch.message ∧
    me.auditor_sigs = sigsOfLast aLast ∧
    me.fixer_sigs = sigsOfLast
      (processFinding fixEnv root aLast rem cem ts copyOk v st fs idx).state.last_response := by
  cases hread : fs (joinPath root v.file_path) with
  | none =>
      have hP : processFinding fixEnv root aLast rem cem ts copyOk v st fs idx =
          ⟨⟨v, ⟨v.file_path, "", "", false, "File read error: " ++ rem⟩, false⟩,
           none, 0, st, fs, idx⟩ := by
        unfold processFinding
        rw [hread]
      rw [hP] at h
      simp at h
  | some orig =>
      by_cases hc : (generate_with_fallback fixEnv v orig st idx).patch.success = true ∧
          (generate_with_fallback fixEnv v orig st idx).patch.fixed_code ≠ ""
      · rcases hw : write_patch fs (joinPath root v.file_path)
            (generate_with_fallback fixEnv v orig st idx).patch.fixed_code ts copyOk
          with ⟨fs2, e⟩
        cases e with
        | none =>
            have hP : processFinding fixEnv root aLast rem cem ts copyOk v st fs idx =
                ⟨⟨v, (generate_with_fallback fixEnv v orig st idx).patch, true⟩,
                 some (buildManifestEntry v true
                   (generate_with_fallback fixEnv v orig st idx).patch aLast
                   (generate_with_fallback fixEnv v orig st idx).state.last_response),
                 1, (generate_with_fallback fixEnv v orig st idx).state, fs2,
                 (generate_with_fallback fixEnv v orig st idx).nextIdx⟩ := by
              unfold processFinding
              rw [hread]
              dsimp only
              rw [if_pos hc, hw]
            rw [hP] at h
            dsimp only at h
            injection h with h2
            subst h2
            rw [hP]
            exact ⟨rfl, rfl, rfl, rfl, rfl, rfl, rfl, rfl, rfl⟩
        | some err =>
            have hP : processFinding fixEnv root aLast rem cem ts copyOk v st fs idx =
                ⟨⟨v, { (generate_with_fallback fixEnv v orig st idx).patch with
                    message := (generate_with_fallback fixEnv v orig st idx).patch.message
                      ++ " | Apply failed: "
                      ++ writeErrMsg err (joinPath root v.file_path) cem }, false⟩,
                 some (buildManifestEntry v false
                   { (generate_with_fallback fixEnv v orig st idx).patch with
                     message := (generate_with_fallback fixEnv v orig st idx).patch.message
                       ++ " | Apply failed: "
                       ++ writeErrMsg err (joinPath root v.file_path) cem } aLast
                   (generate_with_fallback fixEnv v orig st idx).state.last_response),
                 0, (generate_with_fallback fixEnv v orig st idx).state, fs2,
                 (generate_with_fallback fixEnv v orig st idx).nextIdx⟩ := by
              unfold processFinding
              rw [hread]
              dsimp only
              rw [if_pos hc, hw]
            rw [hP] at h
            dsimp only at h
            injection h with h2
            subst h2
            rw [hP]
            exact ⟨rfl, rfl, rfl, rfl, rfl, rfl, rfl, rfl, rfl⟩
      · have hP : processFinding fixEnv root aLast rem cem ts copyOk v st fs idx =
            ⟨⟨v, (generate_with_fallback fixEnv v orig st idx).patch, false⟩,
             some (buildManifestEntry v false
               (generate_with_fallback fixEnv v orig st idx).patch aLast
               (generate_with_fallback fixEnv v orig st idx).state.last_response),
             0, (generate_with_fallback fixEnv v orig st idx).state, fs,
             (generate_with_fallback fixEnv v orig st idx).nextIdx⟩ := by
          unfold processFinding
          rw [hread]
          dsimp only
          rw [if_neg hc]
        rw [hP] at h
        dsimp only at h
        injection h with h2
        subst h2
        rw [hP]
        exact ⟨rfl, rfl, rfl, rfl, rfl, rfl, rfl, rfl, rfl⟩

/-- All manifest records of the fixing loop carry the same auditor
signatures: those of the response captured at cycle level. -/
theorem fixVulns_auditor_sigs (fixEnv : InferenceEnv) (root : String)
    (aLast : Option Response) (re ce tss : Nat → String) (co : Nat → Bool) :
    ∀ (vulns : List Vulnerability) (k : Nat) (st : FixerState) (fs : FS) (idx : Nat),
      ∀ me ∈ (fixVulns fixEnv root aLast re ce tss co vulns k st fs idx).2.1,
        me.auditor_sigs = sigsOfLast aLast := by
  intro vulns
  induction vulns with
  | nil =>
      intro k st fs idx me hme
      simp [fixVulns] at hme
  | cons v rest ih =>
      intro k st fs idx me hme
      rw [fixVulns] at hme
      dsimp only at hme
      rcases List.mem_append.mp hme with h1 | h2
      · have hsome : (processFinding fixEnv root aLast (re k) (ce k) (tss k) (co k)
            v st fs idx).mentry = some me := by
          cases hF : (processFinding fixEnv root aLast (re k) (ce k) (tss k) (co k)
              v st fs idx).mentry with
          | none => rw [hF] at h1; simp at h1
          | some me2 =>
              rw [hF] at h1
              simp at h1
              subst h1
              rfl
        exact (processFinding_mentry fixEnv root aLast (re k) (ce k) (tss k) (co k)
          v st fs idx me hsome).2.2.2.2.2.2.2.1
      · exact ih (k + 1) _ _ _ me h2

/-- A generation whose first call answers stores exactly that response as
the fixer's `last_response`. -/
theorem generate_first_ok (env : InferenceEnv) (v : Vulnerability) (oc : String)
    (st : FixerState) (idx : Nat) (r : Response)
    (hok : env st.agent.active_model idx = .ok r) :
    (generate_with_fallback env v oc st idx).state.last_response = some r := by
  rw [generate_with_fallback, retryLoop_ok env st.agent.active_model r idx hok]
  dsimp only
  split <;> rfl

/-- C5 (amended): every per-Finding manifest entry carries the finding,
the outcome message and the healed flag, and two signature lists encoded
as reversible base64 text of the opaque blobs; the fixer signatures come
from the fixer's `last_response` after that finding's generation (the
response of that finding's call whenever the call answered), while the
auditor signatures come from the auditor's `last_response` at the end of
the whole scan — the last scanned unit's response, not the response for
that entry's unit. -/
theorem manifest_signatures (auditEnv fixEnv : InferenceEnv) (run_id root : String)
    (files : List (String × String)) (re ce tss : Nat → String) (co : Nat → Bool)
    (ast : AuditorState) (fst : FixerState) (fs : FS)
    (aLast : Option Response) (rem cem ts : String) (copyOk : Bool)
    (v : Vulnerability) (st2 : FixerState) (fs2 : FS) (idx : Nat)
    (me : ManifestEntry) (oc : String) (r : Response) (bytes : List Nat) :
    (∀ me2 ∈ (run_self_healing_cycle auditEnv fixEnv run_id root files re ce tss co
        ast fst fs).manifest.entries,
      me2.auditor_sigs
        = sigsOfLast (analyze_repository auditEnv files ast root).2.last_response) ∧
    ((processFinding fixEnv root aLast rem cem ts copyOk v st2 fs2 idx).mentry = some me →
      me.auditor_sigs = sigsOfLast aLast ∧
      me.fixer_sigs = sigsOfLast
        (processFinding fixEnv root aLast rem cem ts copyOk v st2 fs2 idx).state.last_response ∧
      me.file_path = v.file_path ∧ me.issue = v.issue ∧
      me.healed = (processFinding fixEnv root aLast rem cem ts copyOk v st2 fs2 idx).entry.healed ∧
      me.patch_message
        = (processFinding fixEnv root aLast rem cem ts copyOk v st2 fs2 idx).entry.patch.message) ∧
    (fixEnv st2.agent.active_model idx = .ok r →
      (generate_with_fallback fixEnv v oc st2 idx).state.last_response = some r) ∧
    ((∀ b ∈ bytes, b < 256) → b64Decode (b64Encode bytes) = some bytes) := by
  refine ⟨?_, ?_, ?_, fun hb => b64_roundtrip bytes hb⟩
  · intro me2 hme2
    unfold run_self_healing_cycle at hme2
    dsimp only at hme2
    split at hme2
    · simp at hme2
    · exact fixVulns_auditor_sigs fixEnv root
        (analyze_repository auditEnv files ast root).2.last_response re ce tss co
        (analyze_repository auditEnv files ast root).1.vulnerabilities 0 fst fs 0 me2 hme2
  · intro h
    have H := processFinding_mentry fixEnv root aLast rem cem ts copyOk v st2 fs2 idx me h
    exact ⟨H.2.2.2.2.2.2.2.1, H.2.2.2.2.2.2.2.2, H.2.1, H.2.2.2.2.1,
      H.2.2.2.2.2.1, H.2.2.2.2.2.2.1⟩
  · intro hok
    exact generate_first_ok fixEnv v oc st2 idx r hok

/-- Witness for C5 (amended): a first-call response is stored as the
fixer's `last_response`, and a concrete blob round-trips through the
base64 encoding. -/
theorem manifest_signatures_witness :
    (generate_with_fallback (fun _ _ => .ok ⟨[], "safe", .ok .null⟩)
        ⟨"high", "i", "a.py", 1, "s"⟩ "orig" ⟨⟨"m", "f", false⟩, none⟩ 0).state.last_response
      = some ⟨[], "safe", .ok .null⟩ ∧
    b64Decode (b64Encode [0, 17, 255]) = some [0, 17, 255] := by
  have H := manifest_signatures (fun _ _ => .ok ⟨[], "safe", .ok .null⟩)
    (fun _ _ => .ok ⟨[], "safe", .ok .null⟩) "run1" "root" [] (fun _ => "r")
    (fun _ => "c") (fun _ => "T") (fun _ => true) ⟨⟨"m", "f", false⟩, none, []⟩
    ⟨⟨"m", "f", false⟩, none⟩ (fun _ => none) none "r" "c" "T" true
    ⟨"high", "i", "a.py", 1, "s"⟩ ⟨⟨"m", "f", false⟩, none⟩ (fun _ => none) 0
    ⟨"fixer", "a.py", 1, "h", "i", false, "m", [], []⟩ "orig" ⟨[], "safe", .ok .null⟩
    [0, 17, 255]
  exact ⟨H.2.2.1 rfl, H.2.2.2 (by decide)⟩

/-- C5 counterexample: a two-unit run whose single finding lives in the
first unit.  The manifest entry for that finding carries the auditor
signature blob of the *second* (last scanned) unit's response
(`base64 [2] = "Ag=="`), not the signatures of the Scanner call for the
entry's own unit (`base64 [1] = "AQ=="`). -/
theorem manifest_sigs_last_unit :
    ((run_self_healing_cycle
        (fun _ i => if i = 0 then
          .ok ⟨[[⟨true, "", some [1]⟩]], "",
            .ok (.arr [.obj [("severity", .str "high"), ("issue", .str "sqli"),
              ("line_number", .num 3), ("fix_suggestion", .str "fix")]])⟩
        else .ok ⟨[[⟨true, "", some [2]⟩]], "", .ok (.arr [])⟩)
        (fun _ _ => .ok ⟨[], "", .ok .null⟩) "run1" "root"
        [("a.py", "ca"), ("b.py", "cb")] (fun _ => "r") (fun _ => "c") (fun _ => "T")
        (fun _ => true) ⟨⟨"m", "f", false⟩, none, []⟩ ⟨⟨"m", "f", false⟩, none⟩
        (fun q => if q = "root/a.py" then some "bad" else none)).manifest.entries.map
      (fun me => me.auditor_sigs)) = [[("", "Ag==")]] ∧
    extract_thought_signatures ⟨[[⟨true, "", some [1]⟩]], "",
        .ok (.arr [.obj [("severity", .str "high"), ("issue", .str "sqli"),
          ("line_number", .num 3), ("fix_suggestion", .str "fix")]])⟩
      = [("", "AQ==")] ∧
    ([[("", "Ag==")]] : List (List (String × String))) ≠ [[("", "AQ==")]] := by
  refine ⟨?_, by decide, by decide⟩
  have hscan : analyze_repository
      (fun _ i => if i = 0 then
        .ok ⟨[[⟨true, "", some [1]⟩]], "",
          .ok (.arr [.obj [("severity", .str "high"), ("issue", .str "sqli"),
            ("line_number", .num 3), ("fix_suggestion", .str "fix")]])⟩
      else .ok ⟨[[⟨true, "", some [2]⟩]], "", .ok (.arr [])⟩)
      [("a.py", "ca"), ("b.py", "cb")] ⟨⟨"m", "f", false⟩, none, []⟩ "root"
      = (⟨[⟨"high", "sqli", "a.py", 3, "fix"⟩], 2, "root"⟩,
         ⟨⟨"m", "f", false⟩, some ⟨[[⟨true, "", some [2]⟩]], "", .ok (.arr [])⟩, []⟩) := by
    simp [analyze_repository, scanFiles, auditor_call_with_fallback, retryLoop,
      attemptNumbers, AgentState.active_model, parse_response, setDefaultFilePath,
      jsonLookup, validateVuln, accumulate_thinking]
  have hgen : generate_with_fallback (fun _ _ => .ok ⟨[], "", .ok .null⟩)
      ⟨"high", "sqli", "a.py", 3, "fix"⟩ "bad" ⟨⟨"m", "f", false⟩, none⟩ 0
      = ⟨⟨"a.py", "bad", "", false, "Gemini returned an empty response."⟩,
         ⟨⟨"m", "f", false⟩, some ⟨[], "", .ok .null⟩⟩, [], ["m"], 0, none, 1⟩ := by
    rw [generate_with_fallback,
      retryLoop_ok (fun _ _ => .ok ⟨[], "", .ok .null⟩) _ ⟨[], "", .ok .null⟩ 0 rfl]
    dsimp only
    rw [if_pos (by decide)]
    rfl
  have hPF : processFinding (fun _ _ => .ok ⟨[], "", .ok .null⟩) "root"
      (some ⟨[[⟨true, "", some [2]⟩]], "", .ok (.arr [])⟩) "r" "c" "T" true
      ⟨"high", "sqli", "a.py", 3, "fix"⟩ ⟨⟨"m", "f", false⟩, none⟩
      (fun q => if q = "root/a.py" then some "bad" else none) 0
      = ⟨⟨⟨"high", "sqli", "a.py", 3, "fix"⟩,
          ⟨"a.py", "bad", "", false, "Gemini returned an empty response."⟩, false⟩,
         some (buildManifestEntry ⟨"high", "sqli", "a.py", 3, "fix"⟩ false
           ⟨"a.py", "bad", "", false, "Gemini returned an empty response."⟩
           (some ⟨[[⟨true, "", some [2]⟩]], "", .ok (.arr [])⟩)
           (some ⟨[], "", .ok .null⟩)), 0,
         ⟨⟨"m", "f", false⟩, some ⟨[], "", .ok .null⟩⟩,
         (fun q => if q = "root/a.py" then some "bad" else none), 1⟩ := by
    unfold processFinding
    dsimp only
    rw [if_pos (show joinPath "root" "a.py" = "root/a.py" by decide)]
    dsimp only
    rw [hgen]
    dsimp only
    rw [if_neg (by simp)]
  unfold run_self_healing_cycle
  rw [hscan]
  dsimp only
  rw [if_neg (by decide)]
  rw [fixVulns]
  dsimp only
  rw [hPF]
  rw [fixVulns]
  dsimp only
  decide

end SentinelG3
